import Mathlib

set_option maxRecDepth 4000
set_option maxHeartbeats 1000000

/-!
Shallow embedding of the WayLog VS Code extension (TypeScript) in Lean 4.

Strings are modelled as `List Char`; JavaScript string operations are
translated operation by operation.  File-system, database and clock access
is abstracted: every function below is the pure core of the corresponding
TypeScript function, taking the data the IO layer would have produced as an
explicit argument (export timestamps, directory listings, parsed JSON
payloads).  Comments on each definition name the TypeScript source location
it embeds.
-/

/-- Convert a Lean string literal to the `List Char` representation used
throughout this development. -/
def s2l (s : String) : List Char := s.data

/-- JavaScript `String.prototype.trim`: drop (Unicode) whitespace from both
ends of the string. -/
def jsTrim (l : List Char) : List Char :=
  ((l.dropWhile Char.isWhitespace).reverse.dropWhile Char.isWhitespace).reverse

/-- Test whether the five-character window starting at `c :: r` is the
message separator framing `"\n---\n"`. -/
def sepFlag : Char → List Char → Bool
  | c, r1 :: r2 :: r3 :: r4 :: _ =>
    c == '\n' && r1 == '-' && r2 == '-' && r3 == '-' && r4 == '\n'
  | _, _ => false

/-- Greedy, non-overlapping, left-to-right count of occurrences of
`"\n---\n"`, exactly as computed by the JavaScript global regular
expression match `content.match(/\n---\n/g)` inside `getFileMessageCount`
(src/services/waylog-index.ts). -/
def countSep : List Char → Nat
  | '\n' :: '-' :: '-' :: '-' :: '\n' :: rest => countSep rest + 1
  | _ :: rest => countSep rest
  | [] => 0

/-- Whether `"\n---\n"` occurs anywhere in the list (occurrence at any
position; used to state cleanliness side conditions on message bodies). -/
def hasSep : List Char → Bool
  | [] => false
  | c :: rest => sepFlag c rest || hasSep rest

/-- Whether a string contains no newline character. -/
def noNl (l : List Char) : Bool := l.all (fun c => c != '\n')

/-- Canonical message role, mirroring `ChatMessage.role` in
src/services/readers/types.ts. -/
inductive ChatRole where
  | user
  | assistant
  | system
deriving DecidableEq, Repr

/-- Canonical message, mirroring `ChatMessage` in
src/services/readers/types.ts.  The provider-specific `metadata` map is
opaque to every claim under verification and is omitted. -/
structure ChatMessage where
  role : ChatRole
  content : List Char
  timestamp : Option Int
deriving DecidableEq, Repr

/-- Canonical session, mirroring `ChatSession` in
src/services/readers/types.ts (`originalData` and `metadata`, opaque to all
claims, omitted). -/
structure ChatSession where
  id : List Char
  title : List Char
  description : List Char
  timestamp : Int
  lastUpdatedAt : Option Int
  messages : List ChatMessage
  source : List Char
deriving DecidableEq, Repr

/-- Role label used by the markdown formatter:
`msg.role === 'user' ? 'User' : session.source`
(src/services/session-utils.ts, formatSessionMarkdown / formatMessages). -/
def roleNameOf (sourceName : List Char) (m : ChatMessage) : List Char :=
  if m.role = ChatRole.user then s2l "User" else sourceName

/-- One rendered message block of `formatSessionMarkdown` /
`formatMessages`:
`'\n' + '**' + roleName + '**' + '\n\n' + msg.content + '\n'` followed by
the terminator `'\n---\n'` (src/services/session-utils.ts lines 51-60 and
71-81). -/
def msgBlock (sourceName : List Char) (m : ChatMessage) : List Char :=
  (s2l "\n" ++ (s2l "**" ++ roleNameOf sourceName m ++ s2l "**") ++ s2l "\n\n"
    ++ m.content ++ s2l "\n") ++ s2l "\n---\n"

/-- JavaScript `Array.prototype.join('\n')`. -/
def joinNL : List (List Char) → List Char
  | [] => []
  | [x] => x
  | x :: y :: rest => x ++ '\n' :: joinNL (y :: rest)

/-- Embedding of `formatMessages(messages, sourceName)`
(src/services/session-utils.ts lines 71-82): render each message block and
join the blocks with a newline. -/
def formatMessages (messages : List ChatMessage) (sourceName : List Char) :
    List Char :=
  joinNL (messages.map (msgBlock sourceName))

/-- Header of `formatSessionMarkdown` (src/services/session-utils.ts lines
30-49).  The formatted export date and the timezone suffix are computed
from the ambient clock (`new Date()`) in the source; they are taken here as
the explicit arguments `exportDate` and `tz`. -/
def sessionHeader (exportDate tz : List Char) (s : ChatSession) : List Char :=
  s2l "# " ++ s.title ++ s2l "\n_Exported on " ++ exportDate ++ s2l " "
    ++ tz ++ s2l " from " ++ s.source ++ s2l " via WayLog_\n\n"

/-- Embedding of `formatSessionMarkdown(session)`
(src/services/session-utils.ts lines 28-63): header followed by the
newline-joined message blocks. -/
def formatSessionMarkdown (exportDate tz : List Char) (s : ChatSession) :
    List Char :=
  sessionHeader exportDate tz s ++ formatMessages s.messages s.source

/-- Embedding of `getFileMessageCount(filepath)`
(src/services/waylog-index.ts lines 47-62): the argument is the file
content that `fs.readFile` would have returned; the result is the number of
(greedy, non-overlapping) `"\n---\n"` matches. -/
def getFileMessageCount (content : List Char) : Nat := countSep content

/-- Result of syncing one session, mirroring the string union
`'created' | 'updated' | 'skipped'` returned by
`AutoSaveService.syncSession` (src/services/auto-save.ts line 176). -/
inductive SyncResult where
  | created
  | updated
  | skipped
deriving DecidableEq, Repr

/-- Embedding of `AutoSaveService.appendNewMessages(session, existingFile)`
(src/services/auto-save.ts lines 236-250).  The argument `existing` is the
current artifact content; the returned pair is the sync result together
with the artifact content after the call (`fs.appendFile` appends
`'\n' + formatMessages(session.messages.slice(fileMessageCount),
session.source)`). -/
def appendNewMessages (s : ChatSession) (existing : List Char) :
    SyncResult × List Char :=
  -- the source binds `fileMessageCount = getFileMessageCount existing` once
  if s.messages.length > getFileMessageCount existing then
    (SyncResult.updated,
      existing ++ '\n' :: formatMessages
        (s.messages.drop (getFileMessageCount existing)) s.source)
  else
    (SyncResult.skipped, existing)

/-- Artifact content after a sequence of incremental syncs of an existing
artifact, each performed by `appendNewMessages` (the `ARTIFACT_EXISTS` arm
of `syncSession`, src/services/auto-save.ts lines 176-197). -/
def runSyncs (sessions : List ChatSession) (file : List Char) : List Char :=
  sessions.foldl (fun f s => (appendNewMessages s f).2) file

/-- The old artifact content survives unchanged as an initial segment of
the new content. -/
def fileKept (old new : List Char) : Prop := ∃ t, new = old ++ t

/-- Cleanliness condition on one message body: the body framed by the two
newlines that the renderer places around it contains no occurrence of the
separator `"\n---\n"`. -/
abbrev cleanMsg (m : ChatMessage) : Prop :=
  hasSep ('\n' :: m.content ++ ['\n']) = false

example : countSep (s2l "a\n---\nb\n---\n") = 2 := by decide
example : countSep (s2l "\n---\n---\n") = 1 := by decide
example : hasSep (s2l "x\n---\ny") = true := by decide
example : hasSep (s2l "x\n--y") = false := by decide
example :
    formatMessages [⟨ChatRole.user, s2l "Hello", some 1⟩] (s2l "Cursor")
      = s2l "\n**User**\n\nHello\n\n---\n" := by decide

/-! ## Counting lemmas for the separator scan

The greedy regular-expression count `countSep` is analysed by scanning the
artifact from the left: a character that cannot start a `"\n---\n"` match
is skipped, a clean newline-framed segment is skipped wholesale, and each
block terminator contributes exactly one match. -/

theorem countSep_cons (c : Char) (R : List Char) :
    countSep (c :: R) = if sepFlag c R then countSep (R.drop 4) + 1 else countSep R := by
  match c, R with
  | c, r1 :: r2 :: r3 :: r4 :: rr =>
    by_cases hc : c = '\n'
    · by_cases h1 : r1 = '-'
      · by_cases h2 : r2 = '-'
        · by_cases h3 : r3 = '-'
          · by_cases h4 : r4 = '\n'
            · subst hc h1 h2 h3 h4
              simp [sepFlag, countSep]
            · subst hc h1 h2 h3
              rw [countSep.eq_def]
              simp [sepFlag, h4]
          · subst hc h1 h2
            rw [countSep.eq_def]
            simp [sepFlag, h3]
        · subst hc h1
          rw [countSep.eq_def]
          simp [sepFlag, h2]
      · subst hc
        rw [countSep.eq_def]
        simp [sepFlag, h1]
    · rw [countSep.eq_def]
      simp [sepFlag, hc]
  | c, [] =>
    rw [countSep.eq_def]
    simp [sepFlag]
  | c, [r1] =>
    rw [countSep.eq_def]
    simp [sepFlag]
  | c, [r1, r2] =>
    rw [countSep.eq_def]
    simp [sepFlag]
  | c, [r1, r2, r3] =>
    rw [countSep.eq_def]
    simp [sepFlag]

theorem sepFlag_false_of_ne (c : Char) (R : List Char) (h : c ≠ '\n') :
    sepFlag c R = false := by
  rcases R with _ | ⟨r1, _ | ⟨r2, _ | ⟨r3, _ | ⟨r4, rr⟩⟩⟩⟩ <;> simp [sepFlag, h]

theorem sepFlag_nl_false (c : Char) (R : List Char) (h : c ≠ '-') :
    sepFlag '\n' (c :: R) = false := by
  rcases R with _ | ⟨r2, _ | ⟨r3, _ | ⟨r4, rr⟩⟩⟩ <;> simp [sepFlag, h]

theorem cs_ne (c : Char) (R : List Char) (h : c ≠ '\n') :
    countSep (c :: R) = countSep R := by
  rw [countSep_cons, sepFlag_false_of_ne c R h]
  simp

theorem cs_nl (c : Char) (R : List Char) (h : c ≠ '-') :
    countSep ('\n' :: c :: R) = countSep (c :: R) := by
  rw [countSep_cons, sepFlag_nl_false c R h]
  simp

theorem cs_sep (R : List Char) :
    countSep ('\n' :: '-' :: '-' :: '-' :: '\n' :: R) = countSep R + 1 := rfl

theorem cs_noNl_append (x R : List Char) (h : noNl x = true) :
    countSep (x ++ R) = countSep R := by
  induction x with
  | nil => rfl
  | cons c t ih =>
    have hc : c ≠ '\n' := by
      have := (List.all_eq_true.mp h) c (by simp)
      simpa using this
    have ht : noNl t = true := by
      refine List.all_eq_true.mpr ?_
      intro a ha
      exact (List.all_eq_true.mp h) a (by simp [ha])
    rw [List.cons_append, cs_ne c _ hc, ih ht]

theorem sepFlag_append_long (c r1 r2 r3 r4 : Char) (rr y : List Char) :
    sepFlag c ((r1 :: r2 :: r3 :: r4 :: rr) ++ y)
      = sepFlag c (r1 :: r2 :: r3 :: r4 :: rr) := by
  simp [sepFlag]

theorem countSep_clean_append :
    ∀ x : List Char, hasSep x = false → x.getLast? = some '\n' →
      ∀ y : List Char, y.head? = some '\n' → countSep (x ++ y) = countSep y := by
  intro x
  induction x with
  | nil => intro _ h2; simp at h2
  | cons a x ih =>
    intro h1 h2 y hy
    rcases y with _ | ⟨c, ys⟩
    · simp at hy
    have hc : c = '\n' := by simpa using hy
    subst hc
    cases x with
    | nil =>
      have ha : a = '\n' := by simpa using h2
      subst ha
      rw [List.singleton_append, cs_nl '\n' ys (by decide)]
    | cons b x2 =>
      have h1a : sepFlag a (b :: x2) = false ∧ hasSep (b :: x2) = false := by
        have := h1
        rw [hasSep] at this
        constructor
        · cases hsf : sepFlag a (b :: x2) <;> simp [hsf] at this ⊢
        · cases hhs : hasSep (b :: x2) <;> simp [hhs] at this ⊢
      have hlast2 : (b :: x2).getLast? = some '\n' := by
        rw [List.getLast?_cons_cons] at h2
        exact h2
      have hflag : sepFlag a ((b :: x2) ++ '\n' :: ys) = false := by
        rcases x2 with _ | ⟨c3, _ | ⟨c4, _ | ⟨c5, rr⟩⟩⟩
        · -- x = [a, b], b = '\n'
          have hb : b = '\n' := by simpa using hlast2
          subst hb
          rcases ys with _ | ⟨d1, _ | ⟨d2, rr⟩⟩ <;> simp [sepFlag]
        · -- x = [a, b, c3], c3 = '\n'
          have hc3 : c3 = '\n' := by simpa using hlast2
          subst hc3
          rcases ys with _ | ⟨d1, rr⟩ <;> simp [sepFlag]
        · -- x = [a, b, c3, c4], c4 = '\n'
          have hc4 : c4 = '\n' := by simpa using hlast2
          subst hc4
          simp [sepFlag]
        · rw [sepFlag_append_long]
          exact h1a.1
      have hstep : countSep ((a :: b :: x2) ++ '\n' :: ys)
          = countSep ((b :: x2) ++ '\n' :: ys) := by
        rw [List.cons_append, countSep_cons, hflag]
        simp
      rw [hstep]
      exact ih h1a.2 hlast2 ('\n' :: ys) rfl

theorem roleNameOf_noNl (src : List Char) (m : ChatMessage)
    (hsrc : noNl src = true) : noNl (roleNameOf src m) = true := by
  unfold roleNameOf
  split
  · decide
  · exact hsrc

theorem msgBlock_shape (src : List Char) (m : ChatMessage) (T : List Char) :
    msgBlock src m ++ T
      = '\n' :: '*' :: '*' :: (roleNameOf src m
          ++ ('*' :: '*' :: '\n' :: (('\n' :: m.content ++ ['\n'])
          ++ ('\n' :: '-' :: '-' :: '-' :: '\n' :: T)))) := by
  simp [msgBlock, s2l, List.append_assoc]

theorem formatMessages_one (src : List Char) (m : ChatMessage) :
    formatMessages [m] src = msgBlock src m := rfl

theorem formatMessages_two (src : List Char) (m r : ChatMessage)
    (rs : List ChatMessage) :
    formatMessages (m :: r :: rs) src
      = msgBlock src m ++ '\n' :: formatMessages (r :: rs) src := rfl

theorem countSep_msgBlock (src : List Char) (m : ChatMessage) (T : List Char)
    (hsrc : noNl src = true) (hm : cleanMsg m) :
    countSep (msgBlock src m ++ T) = countSep T + 1 := by
  rw [msgBlock_shape]
  rw [cs_nl '*' _ (by decide)]
  rw [cs_ne '*' _ (by decide), cs_ne '*' _ (by decide)]
  rw [cs_noNl_append (roleNameOf src m) _ (roleNameOf_noNl src m hsrc)]
  rw [cs_ne '*' _ (by decide), cs_ne '*' _ (by decide)]
  have hsplit : ('\n' :: (('\n' :: m.content ++ ['\n'])
        ++ ('\n' :: '-' :: '-' :: '-' :: '\n' :: T)))
      = '\n' :: '\n' :: ((m.content ++ ['\n'])
        ++ ('\n' :: '-' :: '-' :: '-' :: '\n' :: T)) := by
    simp
  rw [hsplit, cs_nl '\n' _ (by decide)]
  have hjoin : ('\n' :: ((m.content ++ ['\n'])
        ++ ('\n' :: '-' :: '-' :: '-' :: '\n' :: T)))
      = ('\n' :: m.content ++ ['\n']) ++ ('\n' :: '-' :: '-' :: '-' :: '\n' :: T) := by
    simp
  rw [hjoin]
  rw [countSep_clean_append _ hm ?hlast _ (by simp)]
  case hlast => exact List.getLast?_concat _
  exact cs_sep T

theorem countSep_nl_formatMessages (src : List Char) (m : ChatMessage)
    (rest : List ChatMessage) :
    countSep ('\n' :: formatMessages (m :: rest) src)
      = countSep (formatMessages (m :: rest) src) := by
  cases rest with
  | nil =>
    rw [formatMessages_one]
    have h1 : msgBlock src m = msgBlock src m ++ [] := by simp
    rw [h1, msgBlock_shape]
    exact cs_nl '\n' _ (by decide)
  | cons r rs =>
    rw [formatMessages_two, msgBlock_shape]
    exact cs_nl '\n' _ (by decide)

theorem countSep_formatMessages (src : List Char) (hsrc : noNl src = true) :
    ∀ msgs : List ChatMessage, (∀ m ∈ msgs, cleanMsg m) →
      countSep (formatMessages msgs src) = msgs.length := by
  intro msgs
  induction msgs with
  | nil => intro _; rfl
  | cons m rest ih =>
    intro hcl
    have hm := hcl m (by simp)
    have hrest : ∀ x ∈ rest, cleanMsg x := fun x hx => hcl x (by simp [hx])
    cases rest with
    | nil =>
      rw [formatMessages_one]
      have h1 : msgBlock src m = msgBlock src m ++ [] := by simp
      rw [h1, countSep_msgBlock src m [] hsrc hm]
      rfl
    | cons r rs =>
      rw [formatMessages_two, countSep_msgBlock src m _ hsrc hm]
      rw [countSep_nl_formatMessages, ih hrest]
      simp

theorem sessionHeader_shape (d t : List Char) (s : ChatSession) (B : List Char) :
    sessionHeader d t s ++ B
      = s2l "# " ++ (s.title ++ ('\n' :: '_' :: (s2l "Exported on "
          ++ (d ++ (s2l " " ++ (t ++ (s2l " from " ++ (s.source
          ++ (s2l " via WayLog_" ++ ('\n' :: '\n' :: B)))))))))) := by
  simp [sessionHeader, s2l, List.append_assoc]

/-- Exact round trip of the separator count: for a session whose title and
source, and an export stamp, contain no newline, and each of whose message
bodies is clean once framed by the newlines the renderer adds around it,
the artifact produced by `formatSessionMarkdown` contains exactly one
greedy `"\n---\n"` match per message. -/
theorem countSep_markdown (d t : List Char) (s : ChatSession)
    (hd : noNl d = true) (ht : noNl t = true)
    (htitle : noNl s.title = true) (hsrc : noNl s.source = true)
    (hclean : ∀ m ∈ s.messages, cleanMsg m) :
    getFileMessageCount (formatSessionMarkdown d t s) = s.messages.length := by
  show countSep (sessionHeader d t s ++ formatMessages s.messages s.source)
      = s.messages.length
  rw [sessionHeader_shape]
  rw [cs_noNl_append (s2l "# ") _ (by decide)]
  rw [cs_noNl_append s.title _ htitle]
  rw [cs_nl '_' _ (by decide)]
  rw [cs_ne '_' _ (by decide)]
  rw [cs_noNl_append (s2l "Exported on ") _ (by decide)]
  rw [cs_noNl_append d _ hd]
  rw [cs_noNl_append (s2l " ") _ (by decide)]
  rw [cs_noNl_append t _ ht]
  rw [cs_noNl_append (s2l " from ") _ (by decide)]
  rw [cs_noNl_append s.source _ hsrc]
  rw [cs_noNl_append (s2l " via WayLog_") _ (by decide)]
  cases hms : s.messages with
  | nil => rfl
  | cons m rest =>
    rw [cs_nl '\n' _ (by decide)]
    rw [countSep_nl_formatMessages]
    exact countSep_formatMessages s.source hsrc (m :: rest)
      (by rw [← hms]; exact hclean)

example :
    getFileMessageCount (formatSessionMarkdown (s2l "D") (s2l "Z")
      ⟨s2l "i", s2l "t", s2l "d", 0, none,
        [⟨ChatRole.user, s2l "hi", none⟩, ⟨ChatRole.assistant, s2l "ok", none⟩],
        s2l "S"⟩) = 2 := by decide

theorem joinNL_append (A B : List (List Char)) (hA : A ≠ []) (hB : B ≠ []) :
    joinNL (A ++ B) = joinNL A ++ '\n' :: joinNL B := by
  induction A with
  | nil => exact absurd rfl hA
  | cons x A ih =>
    cases A with
    | nil =>
      cases B with
      | nil => exact absurd rfl hB
      | cons b bs => simp [joinNL]
    | cons y A2 =>
      have hrec := ih (by simp)
      have h1 : (x :: y :: A2) ++ B = x :: ((y :: A2) ++ B) := rfl
      rw [h1]
      have h2 : (y :: A2) ++ B = y :: (A2 ++ B) := rfl
      have h3 : joinNL (x :: y :: (A2 ++ B)) = x ++ '\n' :: joinNL (y :: (A2 ++ B)) := rfl
      rw [h2, h3, ← h2, hrec]
      simp [joinNL, List.append_assoc]

theorem appendKeeps (s : ChatSession) (file : List Char) :
    fileKept file (appendNewMessages s file).2 := by
  unfold appendNewMessages
  by_cases h : s.messages.length > getFileMessageCount file
  · rw [if_pos h]
    exact ⟨'\n' :: formatMessages
      (s.messages.drop (getFileMessageCount file)) s.source, rfl⟩
  · rw [if_neg h]
    exact ⟨[], by simp⟩

theorem fileKept_trans {a b c : List Char} (h1 : fileKept a b) (h2 : fileKept b c) :
    fileKept a c := by
  obtain ⟨t1, rfl⟩ := h1
  obtain ⟨t2, rfl⟩ := h2
  exact ⟨t1 ++ t2, by simp [List.append_assoc]⟩

/-- C2: append-only artifacts.  A sync step over an existing artifact
either appends the rendered suffix of the messages beyond the recovered
separator count (when the live message list is strictly longer), or leaves
the artifact completely untouched (when the live count is equal or
smaller); consequently, over any sequence of syncs the previously written
content — in particular every separator-delimited block already present —
survives byte-for-byte as an initial segment of the artifact. -/
theorem claim_C2 :
    (∀ (s : ChatSession) (file : List Char),
        (s.messages.length > getFileMessageCount file ∧
          appendNewMessages s file
            = (SyncResult.updated,
                file ++ '\n' :: formatMessages
                  (s.messages.drop (getFileMessageCount file)) s.source))
      ∨ (s.messages.length ≤ getFileMessageCount file ∧
          appendNewMessages s file = (SyncResult.skipped, file)))
    ∧ (∀ (sessions : List ChatSession) (file : List Char),
        fileKept file (runSyncs sessions file)) := by
  constructor
  · intro s file
    by_cases h : s.messages.length > getFileMessageCount file
    · refine Or.inl ⟨h, ?_⟩
      unfold appendNewMessages
      rw [if_pos h]
    · refine Or.inr ⟨by omega, ?_⟩
      unfold appendNewMessages
      rw [if_neg h]
  · intro sessions
    induction sessions with
    | nil => intro file; exact ⟨[], by simp [runSyncs]⟩
    | cons s ss ih =>
      intro file
      have hstep : runSyncs (s :: ss) file = runSyncs ss (appendNewMessages s file).2 := rfl
      rw [hstep]
      exact fileKept_trans (appendKeeps s file) (ih (appendNewMessages s file).2)

/-- C1 (amended): idempotence of the merge engine.  For a session whose
title, source and export stamp contain no newline and each of whose message
bodies, framed by the newlines the renderer adds around it, contains no
occurrence of `"\n---\n"`, re-running the append step on the artifact that
`formatSessionMarkdown` just created performs no write and returns
`skipped`, leaving the artifact byte-identical; indeed
`getFileMessageCount` recovers exactly the session message count, so the
strictly-greater append condition is false. -/
theorem claim_C1 (d t : List Char) (s : ChatSession)
    (hd : noNl d = true) (ht : noNl t = true)
    (htitle : noNl s.title = true) (hsrc : noNl s.source = true)
    (hclean : ∀ m ∈ s.messages, cleanMsg m) :
    appendNewMessages s (formatSessionMarkdown d t s)
        = (SyncResult.skipped, formatSessionMarkdown d t s)
    ∧ getFileMessageCount (formatSessionMarkdown d t s) = s.messages.length := by
  have hc := countSep_markdown d t s hd ht htitle hsrc hclean
  refine ⟨?_, hc⟩
  simp [appendNewMessages, hc]

/-- Session used to instantiate the amended idempotence claim. -/
def sWit1 : ChatSession :=
  ⟨s2l "sid-1", s2l "fix bug", s2l "", 0, none,
    [⟨ChatRole.user, s2l "fix bug", none⟩, ⟨ChatRole.assistant, s2l "done", none⟩],
    s2l "Cursor"⟩

theorem claim_C1_witness :
    appendNewMessages sWit1 (formatSessionMarkdown (s2l "12/29/2025 at 09:45:49") (s2l "GMT+8") sWit1)
        = (SyncResult.skipped,
            formatSessionMarkdown (s2l "12/29/2025 at 09:45:49") (s2l "GMT+8") sWit1)
    ∧ getFileMessageCount
        (formatSessionMarkdown (s2l "12/29/2025 at 09:45:49") (s2l "GMT+8") sWit1)
        = sWit1.messages.length :=
  claim_C1 (s2l "12/29/2025 at 09:45:49") (s2l "GMT+8") sWit1
    (by decide) (by decide) (by decide) (by decide) (by decide)

/-- Session refuting the original form of the idempotence claim: the single
message body `"---"` does not contain the substring `"\n---\n"`, yet the
rendered artifact contains two separator matches, not one. -/
def sCex1 : ChatSession :=
  ⟨s2l "sid-c1", s2l "t", s2l "", 0, none,
    [⟨ChatRole.user, s2l "---", none⟩], s2l "S"⟩

theorem claim_C1_cex :
    (∀ m ∈ sCex1.messages, hasSep m.content = false)
    ∧ getFileMessageCount (formatSessionMarkdown (s2l "D") (s2l "T") sCex1) = 2
    ∧ sCex1.messages.length = 1 := by decide

/-- C10 (amended): separator-count round trip.  Under the newline-framed
cleanliness precondition (and newline-free title, source and export stamp),
the artifact rendered by `formatSessionMarkdown` yields exactly one greedy
`"\n---\n"` match per message, so `getFileMessageCount` recovers exactly
the number of messages written. -/
theorem claim_C10 (d t : List Char) (s : ChatSession)
    (hd : noNl d = true) (ht : noNl t = true)
    (htitle : noNl s.title = true) (hsrc : noNl s.source = true)
    (hclean : ∀ m ∈ s.messages, cleanMsg m) :
    getFileMessageCount (formatSessionMarkdown d t s) = s.messages.length :=
  countSep_markdown d t s hd ht htitle hsrc hclean

/-- Session used to instantiate the amended round-trip claim. -/
def sWit10 : ChatSession :=
  ⟨s2l "sid-10", s2l "hello", s2l "", 0, none,
    [⟨ChatRole.user, s2l "hello", none⟩,
     ⟨ChatRole.assistant, s2l "hi - how can I help?", none⟩,
     ⟨ChatRole.user, s2l "bye", none⟩], s2l "Claude"⟩

theorem claim_C10_witness :
    getFileMessageCount (formatSessionMarkdown (s2l "01/02/2026") (s2l "GMT") sWit10)
      = sWit10.messages.length :=
  claim_C10 (s2l "01/02/2026") (s2l "GMT") sWit10
    (by decide) (by decide) (by decide) (by decide) (by decide)

/-- Session refuting the original form of the round-trip claim: the single
message body `"a\n---"` does not contain the substring `"\n---\n"`, yet the
rendered artifact contains two separator matches — the precondition quoted
by the claim is not sufficient for the per-message count to be exactly
one. -/
def sCex10 : ChatSession :=
  ⟨s2l "sid-c10", s2l "t", s2l "", 0, none,
    [⟨ChatRole.user, s2l "a\n---", none⟩], s2l "S"⟩

theorem claim_C10_cex :
    (∀ m ∈ sCex10.messages, hasSep m.content = false)
    ∧ getFileMessageCount (formatSessionMarkdown (s2l "D") (s2l "T") sCex10) = 2
    ∧ sCex10.messages.length = 1 := by decide

/-- C9: create-then-append equals one-shot render.  With a fixed export
stamp, rendering the first k messages with `formatSessionMarkdown` and then
appending a newline followed by `formatMessages` of the remaining messages
(labelled with the session source, as the engine does) is byte-identical to
rendering all messages in one call; and the body of
`formatSessionMarkdown` is exactly `formatMessages(session.messages,
session.source)`. -/
theorem claim_C9 (d t : List Char) (s : ChatSession) (k : Nat)
    (hk1 : 1 ≤ k) (hk2 : k < s.messages.length) :
    formatSessionMarkdown d t s
      = formatSessionMarkdown d t { s with messages := s.messages.take k }
        ++ '\n' :: formatMessages (s.messages.drop k) s.source
    ∧ formatSessionMarkdown d t s
      = sessionHeader d t s ++ formatMessages s.messages s.source := by
  refine ⟨?_, rfl⟩
  have hbody : formatMessages s.messages s.source
      = formatMessages (s.messages.take k) s.source
        ++ '\n' :: formatMessages (s.messages.drop k) s.source := by
    conv_lhs => rw [← List.take_append_drop k s.messages]
    unfold formatMessages
    rw [List.map_append]
    rw [joinNL_append]
    · simp
      refine ⟨by omega, ?_⟩
      intro h
      rw [h] at hk2
      simp at hk2
    · simp
      exact hk2
  calc formatSessionMarkdown d t s
      = sessionHeader d t s ++ formatMessages s.messages s.source := rfl
    _ = sessionHeader d t s ++ (formatMessages (s.messages.take k) s.source
          ++ '\n' :: formatMessages (s.messages.drop k) s.source) := by rw [hbody]
    _ = (sessionHeader d t s ++ formatMessages (s.messages.take k) s.source)
          ++ '\n' :: formatMessages (s.messages.drop k) s.source := by
        rw [List.append_assoc]
    _ = formatSessionMarkdown d t { s with messages := s.messages.take k }
          ++ '\n' :: formatMessages (s.messages.drop k) s.source := rfl

/-- Two-message session used to instantiate the split-render claim at
k = 1. -/
def sWit9 : ChatSession :=
  ⟨s2l "sid-9", s2l "split", s2l "", 0, none,
    [⟨ChatRole.user, s2l "first", none⟩, ⟨ChatRole.assistant, s2l "second", none⟩],
    s2l "Cline"⟩

theorem claim_C9_witness :
    formatSessionMarkdown (s2l "D9") (s2l "T9") sWit9
      = formatSessionMarkdown (s2l "D9") (s2l "T9")
          { sWit9 with messages := sWit9.messages.take 1 }
        ++ '\n' :: formatMessages (sWit9.messages.drop 1) sWit9.source
    ∧ formatSessionMarkdown (s2l "D9") (s2l "T9") sWit9
      = sessionHeader (s2l "D9") (s2l "T9") sWit9
        ++ formatMessages sWit9.messages sWit9.source := by
  exact claim_C9 (s2l "D9") (s2l "T9") sWit9 1 (by norm_num) (by norm_num [sWit9])

/-! ## Workspace matching (src/utils/workspace-matcher.ts) and path
utilities.  Node `path.normalize` / `path.basename` are modelled in their
POSIX form; the matcher first unifies all separators to `/`, so the POSIX
form is the one exercised. -/

/-- Resolve `.`-free segments against `..` segments, as Node
`path.normalize` does (absolute paths drop leading `..`; relative paths
keep them). -/
def pathSegsResolve (isAbs : Bool) (segs : List (List Char)) :
    List (List Char) :=
  (segs.foldl (fun acc s =>
    if s = s2l ".." then
      match acc with
      | [] => if isAbs then [] else [s]
      | t :: rest => if t = s2l ".." then s :: t :: rest else rest
    else s :: acc) []).reverse

/-- Node `path.normalize` (POSIX): resolve `.` and `..`, collapse repeated
separators, keep one trailing separator, return `.` for the empty path. -/
def pathNormalize (p : List Char) : List Char :=
  if p = [] then ['.'] else
  let isAbs : Bool := p.head? == some '/'
  let hasTrail : Bool := p.getLast? == some '/'
  let segs := (p.splitOn '/').filter (fun s => !s.isEmpty && !(s == ['.']))
  let core := List.intercalate ['/'] (pathSegsResolve isAbs segs)
  let body := if isAbs then '/' :: core else if core = [] then ['.'] else core
  if hasTrail && !(body.getLast? == some '/') then body ++ ['/'] else body

/-- Node `path.basename` (POSIX): the final path segment, ignoring trailing
separators; the basename of an all-separator path is `/` and of the empty
path is the empty string. -/
def basename (p : List Char) : List Char :=
  let stripped := p.reverse.dropWhile (fun c => c == '/')
  if stripped.isEmpty then (if p.isEmpty then [] else ['/'])
  else (stripped.takeWhile (fun c => !(c == '/'))).reverse

/-- Embedding of `WorkspaceMatcher.normalizePath`
(src/utils/workspace-matcher.ts lines 137-140): unify separators to `/`,
`path.normalize`, lowercase. -/
def normalizePath (p : List Char) : List Char :=
  (pathNormalize (p.map (fun c => if c = '\\' then '/' else c))).map Char.toLower

/-- Workspace descriptor, mirroring `WorkspaceInfo` in
src/services/readers/types.ts. -/
structure WorkspaceInfo where
  id : List Char
  name : List Char
  path : List Char
  dbPath : Option (List Char)
  lastModified : Int
  chatCount : Int
  source : List Char
deriving DecidableEq, Repr

/-- Stable sort by an integer key, descending: the model of the JavaScript
stable `Array.prototype.sort((a, b) => key(b) - key(a))` used throughout
the readers and the fuzzy matcher. -/
def sortByDesc (key : α → Int) (l : List α) : List α :=
  l.insertionSort (fun a b => key b ≤ key a)

theorem sortByDesc_sorted (key : α → Int) (l : List α) :
    (sortByDesc key l).Sorted (fun a b => key b ≤ key a) := by
  haveI : IsTotal α (fun a b => key b ≤ key a) :=
    ⟨fun a b => (le_total (key b) (key a))⟩
  haveI : IsTrans α (fun a b => key b ≤ key a) :=
    ⟨fun _ _ _ hab hbc => le_trans hbc hab⟩
  exact List.sorted_insertionSort _ l

theorem sortByDesc_perm (key : α → Int) (l : List α) :
    List.Perm (sortByDesc key l) l :=
  List.perm_insertionSort _ l

theorem sortByDesc_head_max (key : α → Int) (l : List α) (w : α)
    (hw : (sortByDesc key l).head? = some w) :
    w ∈ l ∧ ∀ c ∈ l, key c ≤ key w := by
  rcases hs : sortByDesc key l with _ | ⟨a, rest⟩
  · rw [hs] at hw; simp at hw
  · rw [hs] at hw
    have ha : a = w := by simpa using hw
    subst ha
    have hperm := sortByDesc_perm key l
    rw [hs] at hperm
    constructor
    · exact hperm.mem_iff.mp (by simp)
    · intro c hc
      have hc2 : c ∈ a :: rest := hperm.mem_iff.mpr hc
      have hsorted := sortByDesc_sorted key l
      rw [hs] at hsorted
      rcases List.mem_cons.mp hc2 with h | h
      · subst h; exact le_refl _
      · exact List.rel_of_sorted_cons hsorted c h

/-- One descriptor test of the single `find` pass of
`WorkspaceMatcher.findBestMatch` (src/utils/workspace-matcher.ts lines
103-113): a descriptor matches if its normalized path equals the normalized
workspace-file path (when one is given) or the normalized project root. -/
def matchesEither (nRoot : List Char) (nWsFile : Option (List Char))
    (w : WorkspaceInfo) : Bool :=
  (match nWsFile with
    | some f => normalizePath w.path == f
    | none => false)
  || normalizePath w.path == nRoot

/-- Embedding of `WorkspaceMatcher.findBestMatch(workspaces,
currentWorkspaceRoot, vscodeWorkspaceFile)`
(src/utils/workspace-matcher.ts lines 92-131). -/
def findBestMatch (workspaces : List WorkspaceInfo)
    (currentWorkspaceRoot : List Char)
    (vscodeWorkspaceFile : Option (List Char)) : Option WorkspaceInfo :=
  if workspaces.isEmpty then none else
  let nRoot := normalizePath currentWorkspaceRoot
  let nWsFile := vscodeWorkspaceFile.map normalizePath
  match workspaces.find? (matchesEither nRoot nWsFile) with
  | some m => some m
  | none =>
    let base := basename nRoot
    let candidates := workspaces.filter
      (fun w => basename (normalizePath w.path) == base)
    if candidates.isEmpty then none
    else (sortByDesc (fun w => w.lastModified) candidates).head?

example : normalizePath (s2l "C:\\Users\\Test\\Projects\\Project-B")
    = s2l "c:/users/test/projects/project-b" := by decide
example : basename (s2l "/users/test/projects/project-a") = s2l "project-a" := by
  decide

/-- Root-matching descriptor for the matcher priority check. -/
def wRootEx : WorkspaceInfo :=
  ⟨s2l "w1", s2l "Proj", s2l "/proj", none, 1, 1, s2l "Cursor"⟩

/-- Workspace-file-matching descriptor for the matcher priority check. -/
def wFileEx : WorkspaceInfo :=
  ⟨s2l "w2", s2l "ProjWs", s2l "/proj/app.code-workspace", none, 2, 1, s2l "Cursor"⟩

/-- C3: evaluation of the matcher at the failing input.  The single `find`
pass of `findBestMatch` accepts the first descriptor matching either the
workspace-file path or the project root, so with the root-matching
descriptor listed first the matcher returns it, even though a later
descriptor exactly matches the higher-priority workspace-file path — the
step-2-before-step-3 priority stated by the specification (and by the
comment inside the source function) does not hold. -/
theorem claim_C3 :
    findBestMatch [wRootEx, wFileEx] (s2l "/proj")
        (some (s2l "/proj/app.code-workspace")) = some wRootEx
    ∧ normalizePath wFileEx.path = normalizePath (s2l "/proj/app.code-workspace")
    ∧ normalizePath wRootEx.path = normalizePath (s2l "/proj")
    ∧ wRootEx ≠ wFileEx := by decide

/-! ## Reader workspace scans (claim C7) -/

/-- One `.jsonl` session file of a Claude project directory: its
modification time and the (abstracted) result of `extractCwdFromSession`
on it. -/
structure ClaudeSessFile where
  mtimeMs : Int
  cwd : Option (List Char)
deriving DecidableEq, Repr

/-- One directory under the Claude projects path together with the session
files `listSessionsInDir` finds in it. -/
structure ClaudeProjectDir where
  name : List Char
  sessions : List ClaudeSessFile
deriving DecidableEq, Repr

/-- Node `path.join` for the abstract paths used by the reader models. -/
def pathJoin (a b : List Char) : List Char := a ++ '/' :: b

/-- Embedding of `ClaudeReader.getWorkspaces()` (claude-reader, lines
24-95): directories with no session file are skipped; for the others the
session files are sorted by modification time descending, `lastModified`
is the newest time, and the first file (in that order) with an extractable
`cwd` supplies the workspace path, the encoded directory name being the
fallback.  The directories are emitted in enumeration order and the
resulting list is returned without sorting. -/
def claudeGetWorkspaces (projectsPath : List Char)
    (dirs : List ClaudeProjectDir) : List WorkspaceInfo :=
  dirs.filterMap (fun d =>
    if d.sessions.isEmpty then none
    else
      let sorted := sortByDesc (fun f => f.mtimeMs) d.sessions
      let lastModified := (sorted.head?.map (fun f => f.mtimeMs)).getD 0
      let cwd := (sorted.find? (fun f => f.cwd.isSome)).bind (fun f => f.cwd)
      match cwd with
      | some c => some ⟨d.name, basename c, c,
          some (pathJoin projectsPath d.name), lastModified,
          Int.ofNat d.sessions.length, s2l "Claude"⟩
      | none => some ⟨d.name, d.name, d.name,
          some (pathJoin projectsPath d.name), lastModified,
          Int.ofNat d.sessions.length, s2l "Claude"⟩)

/-- One folder of a vscdb-backed reader storage directory:
`dbMtimeMs` is present when `<folder>/state.vscdb` exists, `chatCount` is
the (abstracted) result of `countChatSessions`, and the two `details`
fields abstract `resolveWorkspaceDetails` on `workspace.json`. -/
structure VscdbFolder where
  name : List Char
  dbMtimeMs : Option Int
  chatCount : Int
  detailsName : Option (List Char)
  detailsPath : Option (List Char)
deriving DecidableEq, Repr

/-- Embedding of `BaseVscdbReader.getWorkspaces()`
(src/services/readers/base-vscdb-reader.ts lines 24-61): keep folders with
a database and a positive chat count, then sort by `lastModified`
descending. -/
def vscdbGetWorkspaces (readerName storageBaseDir : List Char)
    (folders : List VscdbFolder) : List WorkspaceInfo :=
  sortByDesc (fun w => w.lastModified)
    (folders.filterMap (fun f =>
      match f.dbMtimeMs with
      | none => none
      | some mtime =>
        if f.chatCount > 0 then
          some ⟨f.name,
            f.detailsName.getD (s2l "Workspace " ++ f.name.take 6),
            f.detailsPath.getD
              (pathJoin (pathJoin storageBaseDir f.name) (s2l "state.vscdb")),
            some (pathJoin (pathJoin storageBaseDir f.name) (s2l "state.vscdb")),
            mtime, f.chatCount, readerName⟩
        else none))

/-- One task folder of a Cline-family reader: whether the directory entry
is a directory, the (abstracted) result of reading and parsing
`api_conversation_history.json` (`none`: unreadable, `some none`: readable
but no workspace path extracted, `some (some p)`: extracted path `p`), and
the folder modification time. -/
structure ClineTaskFolder where
  isDirectory : Bool
  histRead : Option (Option (List Char))
  mtimeMs : Int
deriving DecidableEq, Repr

/-- Aggregated per-workspace record of the Cline scan (`workspaceMap`
values). -/
structure ClineWsAgg where
  count : Int
  lastModified : Int
  path : List Char
deriving DecidableEq, Repr

/-- Update an association list at a key, preserving the JavaScript `Map`
insertion order. -/
def upsertAgg (k : List Char) (f : Option ClineWsAgg → ClineWsAgg) :
    List (List Char × ClineWsAgg) → List (List Char × ClineWsAgg)
  | [] => [(k, f none)]
  | (k2, v) :: rest =>
    if k = k2 then (k2, f (some v)) :: rest else (k2, v) :: upsertAgg k f rest

/-- One iteration of the task-folder loop of
`BaseClineReader.getWorkspaces()`
(src/services/readers/base-cline-reader.ts lines 72-106). -/
def clineFolderStep (extensionDir : List Char)
    (m : List (List Char × ClineWsAgg)) (task : ClineTaskFolder) :
    List (List Char × ClineWsAgg) :=
  if !task.isDirectory then m
  else match task.histRead with
    | some (some wsPath) =>
        upsertAgg wsPath (fun e =>
          match e with
          | none => ⟨1, max 0 task.mtimeMs, extensionDir⟩
          | some ex =>
            if task.mtimeMs > ex.lastModified then
              ⟨ex.count + 1, max ex.lastModified task.mtimeMs, extensionDir⟩
            else ⟨ex.count + 1, ex.lastModified, ex.path⟩) m
    | some none => m
    | none =>
        upsertAgg (s2l "Unknown Workspace") (fun e =>
          match e with
          | none => ⟨1, max 0 task.mtimeMs, extensionDir⟩
          | some ex =>
            ⟨ex.count + 1, max ex.lastModified task.mtimeMs, extensionDir⟩) m

/-- Conversion of the aggregated map entries to workspace descriptors
(src/services/readers/base-cline-reader.ts lines 108-119; the
`JSON.stringify` envelope stored in `dbPath` is abstracted as a plain
pairing of the two strings). -/
def clineEntriesToWs (cfgId cfgName : List Char)
    (entries : List (List Char × ClineWsAgg)) : List WorkspaceInfo :=
  entries.map (fun p =>
    ⟨cfgId ++ ':' :: p.1,
     (if p.1 = s2l "Unknown Workspace" then cfgName ++ s2l " (Unknown)"
      else cfgName ++ s2l ": " ++ basename p.1),
     p.1,
     some (p.2.path ++ '|' :: p.1),
     p.2.lastModified, p.2.count, cfgName⟩)

/-- Embedding of `BaseClineReader.getWorkspaces()`
(src/services/readers/base-cline-reader.ts lines 55-129): aggregate the
task folders of every storage base, emit one descriptor per workspace, and
sort the combined list by `lastModified` descending. -/
def clineGetWorkspaces (cfgId cfgName : List Char)
    (bases : List (List Char × List ClineTaskFolder)) : List WorkspaceInfo :=
  sortByDesc (fun w => w.lastModified)
    ((bases.map (fun b =>
      clineEntriesToWs cfgId cfgName
        (b.2.foldl (clineFolderStep (pathJoin b.1 cfgId)) []))).flatten)

theorem sortByDesc_map_sorted (key : α → Int) (l : List α) :
    ((sortByDesc key l).map key).Sorted (fun a b => b ≤ a) := by
  rw [List.Sorted, List.pairwise_map]
  exact sortByDesc_sorted key l

/-- C7 (amended): the vscdb-backed readers return only workspaces whose
database holds a positive chat count, and their result list — like that of
the Cline-family readers — is sorted by `lastModified` descending.  (The
Claude reader, by contrast, returns its workspaces in directory enumeration
order without sorting; see the counterexample.) -/
theorem claim_C7 :
    (∀ (rn sb : List Char) (folders : List VscdbFolder),
        ((vscdbGetWorkspaces rn sb folders).map
            (fun w => w.lastModified)).Sorted (fun a b => b ≤ a)
        ∧ ∀ w ∈ vscdbGetWorkspaces rn sb folders, w.chatCount > 0)
    ∧ (∀ (cfgId cfgName : List Char)
          (bases : List (List Char × List ClineTaskFolder)),
        ((clineGetWorkspaces cfgId cfgName bases).map
            (fun w => w.lastModified)).Sorted (fun a b => b ≤ a)) := by
  constructor
  · intro rn sb folders
    constructor
    · exact sortByDesc_map_sorted _ _
    · intro w hw
      have hmem := (sortByDesc_perm
        (fun w : WorkspaceInfo => w.lastModified) _).mem_iff.mp hw
      rw [List.mem_filterMap] at hmem
      obtain ⟨f, _, heq⟩ := hmem
      rcases hdb : f.dbMtimeMs with _ | mtime
      · rw [hdb] at heq; simp at heq
      · rw [hdb] at heq
        dsimp only at heq
        by_cases hcnt : f.chatCount > 0
        · rw [if_pos hcnt] at heq
          obtain rfl := Option.some.inj heq
          exact hcnt
        · rw [if_neg hcnt] at heq; simp at heq
  · intro cfgId cfgName bases
    exact sortByDesc_map_sorted _ _

/-- Older Claude project directory, enumerated first. -/
def cDirA : ClaudeProjectDir := ⟨s2l "proj-a", [⟨1, some (s2l "/a")⟩]⟩

/-- Newer Claude project directory, enumerated second. -/
def cDirB : ClaudeProjectDir := ⟨s2l "proj-b", [⟨5, some (s2l "/b")⟩]⟩

/-- Counterexample to the universally quantified sorting claim: the Claude
reader emits workspaces in directory enumeration order, so with an older
directory enumerated first the returned `lastModified` sequence `[1, 5]`
is not descending. -/
theorem claim_C7_cex :
    ((claudeGetWorkspaces (s2l "/claude") [cDirA, cDirB]).map
        (fun w => w.lastModified)) = [1, 5]
    ∧ ¬ (((claudeGetWorkspaces (s2l "/claude") [cDirA, cDirB]).map
        (fun w => w.lastModified)).Sorted (fun a b => b ≤ a)) := by
  constructor
  · decide
  · decide

/-- Folder instantiating the vscdb scan: database present, two chats. -/
def fEx : VscdbFolder := ⟨s2l "f1", some 3, 2, none, none⟩

/-- The workspace descriptor the vscdb scan produces for `fEx`. -/
def vEx : WorkspaceInfo :=
  (vscdbGetWorkspaces (s2l "Cursor") (s2l "/sb") [fEx]).headD
    ⟨[], [], [], none, 0, 0, []⟩

theorem claim_C7_witness :
    vEx.chatCount > 0
    ∧ ((vscdbGetWorkspaces (s2l "Cursor") (s2l "/sb") [fEx]).map
        (fun w => w.lastModified)).Sorted (fun a b => b ≤ a) :=
  ⟨(claim_C7.1 (s2l "Cursor") (s2l "/sb") [fEx]).2 vEx (by decide),
   (claim_C7.1 (s2l "Cursor") (s2l "/sb") [fEx]).1⟩

/-! ## Filename derivation (claim C6)

Embedding of `generateFilename` in its current form (the waylog-index
version with the Claude branch): `Date.prototype.toISOString` is
implemented over epoch milliseconds with the standard Gregorian civil-date
algorithm (non-negative timestamps; four-digit years). -/

/-- Decimal digits of a natural number. -/
def natStr (n : Nat) : List Char := (Nat.repr n).data

/-- Two-digit zero padding. -/
def pad2 (n : Nat) : List Char := if n < 10 then '0' :: natStr n else natStr n

/-- Three-digit zero padding (milliseconds field). -/
def pad3 (n : Nat) : List Char :=
  if n < 10 then '0' :: '0' :: natStr n
  else if n < 100 then '0' :: natStr n
  else natStr n

/-- Gregorian civil date (year, month, day) from days since 1970-01-01,
for non-negative day counts. -/
def civilFromDays (z0 : Nat) : Nat × Nat × Nat :=
  let z := z0 + 719468
  let era := z / 146097
  let doe := z % 146097
  let yoe := (doe - doe / 1460 + doe / 36524 - doe / 146096) / 365
  let y := yoe + era * 400
  let doy := doe - (365 * yoe + yoe / 4 - yoe / 100)
  let mp := (5 * doy + 2) / 153
  let d := doy - (153 * mp + 2) / 5 + 1
  let m := if mp < 10 then mp + 3 else mp - 9
  (if m ≤ 2 then y + 1 else y, m, d)

/-- JavaScript `new Date(ms).toISOString()` for non-negative epoch
milliseconds: `YYYY-MM-DDTHH:MM:SS.mmmZ`. -/
def toISOString (ms : Int) : List Char :=
  let msN := ms.toNat
  let msPart := msN % 1000
  let totalSeconds := msN / 1000
  let days := totalSeconds / 86400
  let secOfDay := totalSeconds % 86400
  let hour := secOfDay / 3600
  let minute := secOfDay % 3600 / 60
  let second := secOfDay % 60
  let ymd := civilFromDays days
  natStr ymd.1 ++ '-' :: pad2 ymd.2.1 ++ '-' :: pad2 ymd.2.2
    ++ 'T' :: pad2 hour ++ ':' :: pad2 minute ++ ':' :: pad2 second
    ++ '.' :: pad3 msPart ++ ['Z']

example : toISOString 1768043096123 = s2l "2026-01-10T11:04:56.123Z" := by
  decide

/-- Character class of the JavaScript regular expression
`/[\p{L}\p{N}]/u` used by `slugify`, restricted to the character sets this
development exercises: ASCII letters and digits and the CJK unified
ideograph range. -/
def jsLetterOrNumber (c : Char) : Bool :=
  c.isAlpha || c.isDigit || (0x4e00 ≤ c.toNat && c.toNat ≤ 0x9fa5)

/-- JavaScript global replace of each hyphen run by one hyphen. -/
def collapseDashes : List Char → List Char
  | '-' :: '-' :: rest => collapseDashes ('-' :: rest)
  | c :: rest => c :: collapseDashes rest
  | [] => []

/-- JavaScript global replace stripping hyphens from both ends. -/
def trimDashes (l : List Char) : List Char :=
  ((l.dropWhile (fun c => c == '-')).reverse.dropWhile (fun c => c == '-')).reverse

/-- Embedding of `slugify(text)` (waylog-index, lines 293-311): take the
first 50 characters, lowercase letters and digits, replace everything else
by a hyphen, collapse hyphen runs, trim end hyphens, and fall back to
`new-chat` when nothing remains. -/
def slugify (text : List Char) : List Char :=
  let truncated := text.take 50
  let slug := truncated.map (fun c => if jsLetterOrNumber c then c.toLower else '-')
  let cleanSlug := trimDashes (collapseDashes slug)
  if cleanSlug.isEmpty then s2l "new-chat" else cleanSlug

/-- Characters kept by the title sanitizer regular expression
`[^a-zA-Z0-9_一-龥]` (exact). -/
def keepTitleChar (c : Char) : Bool :=
  ('a' ≤ c && c ≤ 'z') || ('A' ≤ c && c ≤ 'Z') || ('0' ≤ c && c ≤ '9')
    || c == '_' || (0x4e00 ≤ c.toNat && c.toNat ≤ 0x9fa5)

/-- The Claude-branch timestamp transform
`iso.replace(/T/, '_').replace(/\.\d{3}Z$/, 'Z').replace(/:/g, '-')`: the
ISO string contains exactly one `T` and always ends in `.dddZ`, so the
first replace is a plain character map and the second drops the final five
characters. -/
def claudeStamp (iso : List Char) : List Char :=
  let underscored := iso.map (fun c => if c = 'T' then '_' else c)
  let stripped := underscored.take (underscored.length - 5) ++ ['Z']
  stripped.map (fun c => if c = ':' then '-' else c)

/-- The Claude slug choice:
`firstUserMessage ? slugify(firstUserMessage.content) : session.id ||
'new-chat'`, phrased over the content of the first user message. -/
def claudeSlugOf (firstUserContent : Option (List Char)) (id : List Char) :
    List Char :=
  match firstUserContent with
  | some c => slugify c
  | none => if id.isEmpty then s2l "new-chat" else id

/-- Embedding of `generateFilename(session)` (waylog-index, lines
318-343): Claude sessions use `{timestamp}-claude-{slug}.md`; other
providers use `{date}_{time}Z-{sanitized title}.md`.  The `timeStr`
computation `split('T')[1].slice(0, 5).replace(':', '-')` replaces the one
colon inside the five-character `HH:MM` window. -/
def generateFilename (session : ChatSession) : List Char :=
  let iso := toISOString session.timestamp
  if session.source.map Char.toLower = s2l "claude" then
    claudeStamp iso ++ s2l "-claude-"
      ++ claudeSlugOf
          ((session.messages.find? (fun m => decide (m.role = ChatRole.user))).map
            (fun m => m.content))
          session.id
      ++ s2l ".md"
  else
    let dateStr := iso.takeWhile (fun c => !(c == 'T'))
    let timeStr := (((iso.dropWhile (fun c => !(c == 'T'))).drop 1).take 5).map
      (fun c => if c = ':' then '-' else c)
    let sanitizedTitle :=
      (session.title.map (fun c => if keepTitleChar c then c else '_')).take 50
    dateStr ++ '_' :: timeStr ++ s2l "Z-" ++ sanitizedTitle ++ s2l ".md"

example :
    generateFilename ⟨s2l "test-session-123", s2l "Test Session", s2l "",
        1768043096123, some 1768043096123,
        [⟨ChatRole.user, s2l "How do I implement a CLI tool?", none⟩],
        s2l "Claude"⟩
      = s2l "2026-01-10_11-04-56Z-claude-how-do-i-implement-a-cli-tool.md" := by
  decide

example :
    generateFilename ⟨s2l "cursor-session-123", s2l "My Cursor Chat", s2l "",
        1768043096123, some 1768043096123, [], s2l "Cursor"⟩
      = s2l "2026-01-10_11-04Z-My_Cursor_Chat.md" := by decide

example :
    generateFilename ⟨s2l "fallback-session-id", s2l "Test Session", s2l "",
        1768043096123, some 1768043096123, [], s2l "Claude"⟩
      = s2l "2026-01-10_11-04-56Z-claude-fallback-session-id.md" := by decide

/-- C6: filename stability.  `generateFilename` is a pure function of the
session source, creation timestamp, title, first user-message content and
session id: two sessions agreeing on those five fields — whatever their
`lastUpdatedAt`, `description`, or further messages — derive the identical
filename, and re-derivation for a fixed session is trivially constant. -/
theorem claim_C6 (s1 s2 : ChatSession)
    (hsrc : s1.source = s2.source) (hts : s1.timestamp = s2.timestamp)
    (htitle : s1.title = s2.title) (hid : s1.id = s2.id)
    (hfu : (s1.messages.find? (fun m => decide (m.role = ChatRole.user))).map
        (fun m => m.content)
      = (s2.messages.find? (fun m => decide (m.role = ChatRole.user))).map
        (fun m => m.content)) :
    generateFilename s1 = generateFilename s2 := by
  unfold generateFilename claudeSlugOf
  rw [hsrc, hts, htitle, hid, hfu]

/-- First variant of the stability witness session. -/
def sStabA : ChatSession :=
  ⟨s2l "id-stab", s2l "Stable Title", s2l "first description",
    1768043096123, some 1768043096123,
    [⟨ChatRole.user, s2l "Hello World!!", some 1⟩,
     ⟨ChatRole.assistant, s2l "reply one", some 2⟩],
    s2l "Claude"⟩

/-- Second variant: same identity fields, different `lastUpdatedAt`,
description and trailing messages. -/
def sStabB : ChatSession :=
  ⟨s2l "id-stab", s2l "Stable Title", s2l "another description",
    1768043096123, some 1999999999999,
    [⟨ChatRole.user, s2l "Hello World!!", some 1⟩,
     ⟨ChatRole.assistant, s2l "a different reply", some 9⟩,
     ⟨ChatRole.assistant, s2l "and one more", some 10⟩],
    s2l "Claude"⟩

theorem claim_C6_witness : generateFilename sStabA = generateFilename sStabB :=
  claim_C6 sStabA sStabB (by decide) (by decide) (by decide) (by decide)
    (by decide)

/-! ## Claude JSONL parser (src/services/readers/claude-parser.ts) -/

/-- JavaScript truthiness of an optional string: present and non-empty. -/
def strTruthy : Option (List Char) → Bool
  | some s => !s.isEmpty
  | none => false

/-- JavaScript truthiness of an optional number: present and non-zero. -/
def intTruthy : Option Int → Bool
  | some t => t != 0
  | none => false

/-- One item of an array-shaped Claude message content. -/
structure ClaudeContentItem where
  type : List Char
  text : Option (List Char)
  name : Option (List Char)
deriving DecidableEq, Repr

/-- Claude message content: a plain string or an item array. -/
inductive ClaudeContent where
  | str (s : List Char)
  | items (l : List ClaudeContentItem)
deriving DecidableEq, Repr

/-- Inner message of a Claude event.  The `id`, `model` and `usage` fields
feed only the metadata map, which is opaque to every claim and omitted
here. -/
structure ClaudeMessageInternal where
  role : List Char
  content : ClaudeContent
deriving DecidableEq, Repr

/-- One parsed JSONL event of a Claude session.  `timestamp` abstracts the
ISO string (`new Date(event.timestamp).getTime()` is pre-applied; a missing
or empty string is `none`); `uuid` and `cwd` feed only the omitted metadata
map and the unused `projectPath` local and are dropped. -/
structure ClaudeEvent where
  type : List Char
  sessionId : Option (List Char)
  timestamp : Option Int
  message : Option ClaudeMessageInternal
  error : Option (List Char)
  isApiErrorMessage : Bool
  summary : Option (List Char)
deriving DecidableEq, Repr

/-- The `content` result of mapping an item array: text items contribute
their text (or the empty string), every other item contributes the empty
string, joined by newlines (claude-parser.ts lines 151-162). -/
def extractItemsContent (l : List ClaudeContentItem) : List Char :=
  List.intercalate ['\n']
    (l.map (fun it => if it.type = s2l "text" then it.text.getD [] else []))

/-- The tool-call names collected while mapping an item array
(claude-parser.ts lines 157-159). -/
def extractToolCalls (l : List ClaudeContentItem) : List (List Char) :=
  l.filterMap (fun it =>
    if it.type = s2l "tool_use" then
      match it.name with
      | some n => if n.isEmpty then none else some n
      | none => none
    else none)

/-- Boolean test that `pat` is an initial segment of `s`. -/
def lStarts : List Char → List Char → Bool
  | [], _ => true
  | _ :: _, [] => false
  | p :: ps, c :: cs => p == c && lStarts ps cs

/-- Characters allowed in an `ide_` tag name: the class `[a-z_]`. -/
def ideNameChar (c : Char) : Bool := ('a' ≤ c && c ≤ 'z') || c == '_'

/-- If `s` starts with `tagLit` followed by a non-empty `[a-z_]+` name and
a closing `>`, return the remainder after the tag. -/
def tagRemainder (tagLit : List Char) (s : List Char) : Option (List Char) :=
  if lStarts tagLit s then
    let r := s.drop tagLit.length
    let name := r.takeWhile ideNameChar
    if name.isEmpty then none
    else match r.drop name.length with
      | '>' :: r2 => some r2
      | _ => none
  else none

/-- Scan for the earliest closing tag matching the lazy group terminator
of the strip pattern, returning the remainder after it. -/
def findClose : List Char → Option (List Char)
  | [] => none
  | c :: rest =>
    match tagRemainder (s2l "</ide_") (c :: rest) with
    | some r => some r
    | none => findClose rest

/-- Attempt a full strip-pattern match starting exactly at the head of
`s`: an opening `ide_` tag, a lazy body, and the earliest closing tag. -/
def ideMatchRemainder (s : List Char) : Option (List Char) :=
  match tagRemainder (s2l "<ide_") s with
  | some afterOpen => findClose afterOpen
  | none => none

/-- Fuel-indexed strip scan; the fuel bounds the number of scan steps and
is instantiated with the string length (each step consumes at least one
character, so the fuel never runs out). -/
def stripIdeAux : Nat → List Char → List Char
  | _, [] => []
  | 0, l => l
  | fuel + 1, c :: rest =>
    match ideMatchRemainder (c :: rest) with
    | some r => stripIdeAux fuel r
    | none => c :: stripIdeAux fuel rest

/-- The global replace by the empty string of every `ide_` tagged region,
embedding the regular-expression strip of claude-parser.ts line 199
(opening `ide_` tag, lazy body, closing `ide_` tag). -/
def stripIde (s : List Char) : List Char := stripIdeAux s.length s

example : stripIde (s2l "<ide_opened_file>x</ide_opened_file>") = [] := by
  decide
example : stripIde (s2l "keep <ide_a>x</ide_b> this") = s2l "keep  this" := by
  decide

/-- Split `s` at the first occurrence of `pat`: the part before it and the
part after it. -/
def splitFirst (pat : List Char) : List Char → Option (List Char × List Char)
  | [] => if pat.isEmpty then some ([], []) else none
  | c :: rest =>
    if lStarts pat (c :: rest) then some ([], (c :: rest).drop pat.length)
    else match splitFirst pat rest with
      | some pr => some (c :: pr.1, pr.2)
      | none => none

/-- The `local-command-stdout` arm of `formatClaudeXml`
(claude-parser.ts lines 248-252). -/
def formatStdoutXml (content : List Char) : List Char :=
  match splitFirst (s2l "<local-command-stdout>") content with
  | some pr =>
    match splitFirst (s2l "</local-command-stdout>") pr.2 with
    | some pr2 => s2l "> ⎿ " ++ jsTrim pr2.1
    | none => content
  | none => content

/-- Embedding of `ClaudeParser.formatClaudeXml(content)`
(claude-parser.ts lines 237-255): a `command-name` region whose trimmed
body starts with `/` becomes `> cmd`; otherwise a `local-command-stdout`
region becomes `> ⎿ out`; otherwise the content is returned unchanged. -/
def formatClaudeXml (content : List Char) : List Char :=
  match splitFirst (s2l "<command-name>") content with
  | some pr =>
    match splitFirst (s2l "</command-name>") pr.2 with
    | some pr2 =>
      let cmd := jsTrim pr2.1
      if cmd.head? = some '/' then s2l "> " ++ cmd
      else formatStdoutXml content
    | none => formatStdoutXml content
  | none => formatStdoutXml content

/-- Embedding of `ClaudeParser.parseMessage(event, defaultTimestamp)`
(claude-parser.ts lines 123-232).  The extra first argument `nowMs` is the
ambient clock used by the `Date.now()` fallback. -/
def parseMessage (nowMs : Int) (event : ClaudeEvent) (defaultTimestamp : Int) :
    Option ChatMessage :=
  let role? : Option ChatRole :=
    if event.type = s2l "assistant" then some ChatRole.assistant
    else if event.type = s2l "user" then some ChatRole.user
    else if event.type = s2l "summary" then some ChatRole.assistant
    else none
  match role? with
  | none => none
  | some role =>
    let ctc : List Char × List (List Char) :=
      if event.type = s2l "summary" ∧ strTruthy event.summary then
        (s2l "[Summary] " ++ event.summary.getD [], [])
      else match event.message with
        | some m =>
          (match m.content with
            | ClaudeContent.str s => (s, [])
            | ClaudeContent.items l => (extractItemsContent l, extractToolCalls l))
        | none =>
          if event.isApiErrorMessage ∧ strTruthy event.error then
            (s2l "Error: " ++ event.error.getD [], [])
          else ([], [])
    if ctc.1.isEmpty ∧ ctc.2.isEmpty ∧ ¬ strTruthy event.error
        ∧ ¬ strTruthy event.summary then none
    else
      let content1 := if ctc.1.isEmpty ∧ strTruthy event.error
        then s2l "Error: " ++ event.error.getD [] else ctc.1
      let content2? : Option (List Char) :=
        if role = ChatRole.user then
          let cleanContent := jsTrim (stripIde content1)
          if cleanContent.isEmpty then none
          else some (formatClaudeXml cleanContent)
        else some content1
      match content2? with
      | none => none
      | some content2 =>
        if (jsTrim content2).isEmpty ∧ ¬ strTruthy event.error then none
        else some ⟨role, content2,
          some (match event.timestamp with
            | some t => t
            | none => if defaultTimestamp > 0 then defaultTimestamp else nowMs)⟩

/-- Accumulator of the `parseSession` line loop. -/
structure ClaudeParseState where
  sessionId : List Char
  startedAt : Int
  messages : List ChatMessage
deriving DecidableEq, Repr

/-- `fileName.replace(/\.jsonl$/, '')`. -/
def stripJsonl (fileName : List Char) : List Char :=
  if 6 ≤ fileName.length ∧ fileName.drop (fileName.length - 6) = s2l ".jsonl"
  then fileName.take (fileName.length - 6) else fileName

/-- One iteration of the `parseSession` event loop (claude-parser.ts lines
59-97): session-id extraction with filename fallback, then message
parsing for user and assistant events, recording the first message
timestamp as the session start. -/
def parseSessionStep (nowMs creationTime : Int) (fileName : List Char)
    (st : ClaudeParseState) (event : ClaudeEvent) : ClaudeParseState :=
  let sid1 := if st.sessionId.isEmpty ∧ strTruthy event.sessionId
    then event.sessionId.getD [] else st.sessionId
  let sid2 := if sid1.isEmpty ∧ ¬ fileName.isEmpty
    then stripJsonl fileName else sid1
  if event.type = s2l "user" ∨ event.type = s2l "assistant" then
    match parseMessage nowMs event creationTime with
    | some msg =>
      let started := if st.messages.isEmpty ∧ intTruthy msg.timestamp
        then msg.timestamp.getD st.startedAt else st.startedAt
      ⟨sid2, started, st.messages ++ [msg]⟩
    | none => ⟨sid2, st.startedAt, st.messages⟩
  else ⟨sid2, st.startedAt, st.messages⟩

/-- The title predicate of `parseSession` (claude-parser.ts line 110):
first user message with non-empty, non-whitespace content not produced by
command-output formatting. -/
def titlePred (m : ChatMessage) : Bool :=
  decide (m.role = ChatRole.user) && !m.content.isEmpty
    && !(jsTrim m.content).isEmpty && !lStarts (s2l "> ⎿") m.content

/-- Embedding of `ClaudeParser.parseSession(content, fileName,
creationTime)` (claude-parser.ts lines 49-118).  The JSONL split and
per-line `JSON.parse` are abstracted: the input is the list of
successfully parsed events (blank and malformed lines are skipped by the
source loop and add nothing to the state). -/
def parseSession (nowMs : Int) (events : List ClaudeEvent)
    (fileName : List Char) (creationTime : Int) : Option ChatSession :=
  let startedAt0 := if creationTime > 0 then creationTime else nowMs
  let st := events.foldl (parseSessionStep nowMs creationTime fileName)
    ⟨[], startedAt0, []⟩
  if st.messages.isEmpty then none
  else some ⟨st.sessionId,
    (match st.messages.find? titlePred with
      | some m => m.content.take 50
      | none => st.sessionId),
    s2l "Chat (" ++ natStr st.messages.length ++ s2l " msg)",
    st.startedAt,
    some (match st.messages.getLast? with
      | some m => if intTruthy m.timestamp then m.timestamp.getD st.startedAt
                  else st.startedAt
      | none => st.startedAt),
    st.messages, s2l "Claude"⟩

/-! ## Cursor bubble parser (src/services/readers/cursor-parser.ts) -/

/-- One node of Cursor Lexical rich text (`richText` JSON): a text run or
a group with children (`node.children` present). -/
inductive LexNode where
  | leaf (text : Option (List Char))
  | group (text : Option (List Char)) (children : List LexNode)

mutual

/-- Text of one Lexical node (cursor-parser.ts lines 121-125): a truthy
`text` wins, else the children are joined, else the empty string. -/
def lexText : LexNode → List Char
  | LexNode.leaf t => if strTruthy t then t.getD [] else []
  | LexNode.group t cs => if strTruthy t then t.getD [] else parseLexicalNodes cs

/-- Texts of a list of Lexical nodes. -/
def lexList : List LexNode → List (List Char)
  | [] => []
  | n :: rest => lexText n :: lexList rest

/-- Embedding of `CursorParser.parseLexicalNodes(nodes)` (cursor-parser.ts
lines 119-128): newline-join of the node texts, trimmed. -/
def parseLexicalNodes (nodes : List LexNode) : List Char :=
  jsTrim (List.intercalate ['\n'] (lexList nodes))

end

/-- The `type` field of a Cursor bubble: `1`/`2` numeric or
`'user'`/`'assistant'` string. -/
inductive BubbleType where
  | num (n : Int)
  | str (s : List Char)
deriving DecidableEq, Repr

/-- One raw Cursor bubble.  `rich` abstracts the `richText` JSON: the
parsed `root.children` list, or `none` when the field is absent, fails to
parse, or has no `root.children`.  `createdAt` abstracts the numeric or
date-string creation time as epoch milliseconds. -/
structure CursorBubble where
  text : Option (List Char)
  rich : Option (List LexNode)
  type? : Option BubbleType
  createdAt : Option Int

/-- `b.type === 1 || b.type === 'user'` (cursor-parser.ts line 43). -/
def bubbleIsUser (b : CursorBubble) : Bool :=
  match b.type? with
  | some (BubbleType.num n) => n == 1
  | some (BubbleType.str s) => s == s2l "user"
  | none => false

/-- Embedding of `CursorParser.extractTextContent(bubble)`
(cursor-parser.ts lines 99-114): `bubble.text || ''`, falling back to the
Lexical rich text when empty, trimmed. -/
def extractTextContent (b : CursorBubble) : List Char :=
  let content := b.text.getD []
  let content2 := if content.isEmpty then
      (match b.rich with
        | some nodes => parseLexicalNodes nodes
        | none => content)
    else content
  jsTrim content2

/-- Stable sort by an integer key, ascending: the model of the stable
JavaScript `sort((a, b) => key(a) - key(b))`. -/
def sortByAsc (key : α → Int) (l : List α) : List α :=
  l.insertionSort (fun a b => key a ≤ key b)

/-- The bubble sort of `parseBubbles` (cursor-parser.ts lines 34-36):
ascending by `new Date(b.createdAt || 0).getTime()`. -/
def sortBubbles (bubbles : List CursorBubble) : List CursorBubble :=
  sortByAsc (fun b => b.createdAt.getD 0) bubbles

/-- The pending merged-assistant buffer (`currentAssistantMessage`). -/
structure PendingAsst where
  content : List Char
  timestamp : Int
deriving DecidableEq, Repr

/-- Flush of the pending assistant buffer (cursor-parser.ts lines 53-61
and 84-91): the accumulated content, trimmed. -/
def flushPending : Option PendingAsst → List ChatMessage
  | some p => [⟨ChatRole.assistant, jsTrim p.content, some p.timestamp⟩]
  | none => []

/-- The bubble loop of `parseBubbles` (cursor-parser.ts lines 41-91):
bubbles without content are skipped, a user bubble flushes the pending
assistant buffer and is emitted, and consecutive assistant bubbles
accumulate into the buffer joined by blank lines. -/
def parseLoop (nowMs : Int) :
    Option PendingAsst → List CursorBubble → List ChatMessage
  | pend, [] => flushPending pend
  | pend, b :: rest =>
    let content := extractTextContent b
    if content.isEmpty then parseLoop nowMs pend rest
    else
      let timestamp := if intTruthy b.createdAt then b.createdAt.getD 0 else nowMs
      if bubbleIsUser b then
        flushPending pend
          ++ ⟨ChatRole.user, jsTrim content, some timestamp⟩
            :: parseLoop nowMs none rest
      else
        match pend with
        | some p =>
          parseLoop nowMs (some ⟨p.content ++ s2l "\n\n" ++ content, p.timestamp⟩) rest
        | none => parseLoop nowMs (some ⟨content, timestamp⟩) rest

/-- Embedding of `CursorParser.parseBubbles(bubbles)` (cursor-parser.ts
lines 32-94): sort by creation time, then run the merge loop. -/
def parseBubbles (nowMs : Int) (bubbles : List CursorBubble) :
    List ChatMessage :=
  parseLoop nowMs none (sortBubbles bubbles)

/-- Blank-line join of a list of strings (the accumulated form of the
`content += '\n\n' + content` merge). -/
def joinBlank : List (List Char) → List Char
  | [] => []
  | [x] => x
  | x :: y :: rest => x ++ '\n' :: '\n' :: joinBlank (y :: rest)

/-! ## Cline-family content fetch and composer metadata -/

/-- One entry of a Cline-family `ui_messages.json` file.  `hasImages`
records whether the raw object has an `images` key; `questionOf` abstracts
`JSON.parse(text).question` (present exactly when the text parses and has
a truthy `question`). -/
structure ClineUiMsg where
  type : List Char
  say : Option (List Char)
  text : Option (List Char)
  hasImages : Bool
  ts : Option Int
  questionOf : Option (List Char)
deriving DecidableEq, Repr

/-- Messages contributed by one raw record of
`BaseClineReader.fetchSessionContent`
(src/services/readers/base-cline-reader.ts lines 223-260): matching `say`
records yield one user or assistant message each, `ask` records one
assistant message; nothing is merged. -/
def clineMsgOf (msg : ClineUiMsg) : List ChatMessage :=
  if msg.type = s2l "say"
      ∧ (msg.say = some (s2l "text") ∨ msg.say = some (s2l "completion_result")
          ∨ msg.say = some (s2l "user_feedback")) then
    if msg.hasImages ∨ msg.say = some (s2l "user_feedback") then
      [⟨ChatRole.user, msg.text.getD [], msg.ts⟩]
    else if strTruthy msg.text then
      [⟨ChatRole.assistant, msg.text.getD [], msg.ts⟩]
    else []
  else if msg.type = s2l "ask" ∧ strTruthy msg.text then
    [⟨ChatRole.assistant,
      (if strTruthy msg.questionOf then msg.questionOf.getD []
       else msg.text.getD []), msg.ts⟩]
  else []

/-- Embedding of `BaseClineReader.fetchSessionContent(sessionId,
workspaceDbPath)` message construction (base-cline-reader.ts lines
210-269); the file read and JSON parse are abstracted, the input being the
parsed `ui_messages` list. -/
def fetchSessionContent (msgs : List ClineUiMsg) : List ChatMessage :=
  (msgs.map clineMsgOf).flatten

/-- One raw Cursor composer record (`parseComposers` input). -/
structure CursorComposer where
  composerId : Option (List Char)
  name : Option (List Char)
  subtitle : Option (List Char)
  totalLinesAdded : Option Int
  totalLinesRemoved : Option Int
  createdAt : Option Int
  lastUpdatedAt : Option Int
  unifiedMode : Option (List Char)
deriving DecidableEq, Repr

/-- JavaScript `a || b` over an optional number. -/
def numOr (a : Option Int) (b : Int) : Int :=
  if intTruthy a then a.getD 0 else b

/-- Embedding of `CursorParser.isValidComposer(comp)` (cursor-parser.ts
lines 155-165). -/
def isValidComposer (comp : CursorComposer) : Bool :=
  if ¬ strTruthy comp.composerId then false
  else
    let hasCustomName := strTruthy comp.name
      && !(comp.name.getD [] == s2l "Untitled Composer")
    let hasSubtitle := strTruthy comp.subtitle
    let hasCodeChanges := decide (0 < comp.totalLinesAdded.getD 0)
      || decide (0 < comp.totalLinesRemoved.getD 0)
    let lastUpdate := numOr comp.lastUpdatedAt (numOr comp.createdAt 0)
    let isActive := decide (5000 < lastUpdate - numOr comp.createdAt 0)
    hasCustomName || hasSubtitle || hasCodeChanges || isActive

/-- Embedding of `CursorParser.parseComposers(composers, sourceName)`
(cursor-parser.ts lines 170-189).  The extra `nowMs` argument is the
ambient clock for the `Date.now()` fallbacks. -/
def parseComposers (nowMs : Int) (composers : List CursorComposer)
    (sourceName : List Char) : List ChatSession :=
  (composers.filter isValidComposer).map (fun comp =>
    let title0 := if strTruthy comp.name then comp.name.getD []
      else s2l "Untitled Composer"
    let title := if title0 = s2l "Untitled Composer" ∧ strTruthy comp.subtitle
      then (comp.subtitle.getD []).take 50 else title0
    ⟨comp.composerId.getD [],
     title,
     (if strTruthy comp.unifiedMode then comp.unifiedMode.getD []
      else s2l "Agent") ++ s2l " Mode",
     numOr comp.createdAt (numOr comp.lastUpdatedAt nowMs),
     some (numOr comp.lastUpdatedAt (numOr comp.createdAt nowMs)),
     [], sourceName⟩)

/-- C4 (amended): noise stripping.  A user event whose extracted content
is a non-empty string that strips to whitespace (it consisted solely of
recognized `ide_` internal-context regions) yields no message at all —
even when the event also carries an error signal.  The error-synthesis
exception applies only to user events with no message payload at all: such
an event carrying a truthy error yields a synthesized `Error: ...`
message. -/
theorem claim_C4 (nowMs dts : Int) (e : ClaudeEvent) :
    (∀ (m : ClaudeMessageInternal) (s : List Char),
      e.type = s2l "user" → e.message = some m →
      m.content = ClaudeContent.str s → s.isEmpty = false →
      (jsTrim (stripIde s)).isEmpty = true →
      parseMessage nowMs e dts = none)
    ∧ (∀ err : List Char,
      e.type = s2l "user" → e.message = none → e.summary = none →
      e.error = some err → err.isEmpty = false →
      e.isApiErrorMessage = false →
      stripIde (s2l "Error: " ++ err) = s2l "Error: " ++ err →
      jsTrim (s2l "Error: " ++ err) = s2l "Error: " ++ err →
      formatClaudeXml (s2l "Error: " ++ err) = s2l "Error: " ++ err →
      ∃ ts : Int, parseMessage nowMs e dts
        = some ⟨ChatRole.user, s2l "Error: " ++ err, some ts⟩) := by
  have hne1 : ¬ (s2l "user" = s2l "assistant") := by decide
  have hne2 : ¬ (s2l "user" = s2l "summary") := by decide
  constructor
  · intro m s htype hmsg hcontent hne hclean
    simp [parseMessage, htype, hne1, hne2, hmsg, hcontent, hne, hclean]
  · intro err htype hmsg hsum herr herrne hapi hstrip htrim hfmt
    refine ⟨(match e.timestamp with
      | some t => t
      | none => if dts > 0 then dts else nowMs), ?_⟩
    have htr2 : strTruthy (some err) = true := by
      simp [strTruthy, herrne]
    have htr : strTruthy e.error = true := by rw [herr]; exact htr2
    have hEne : ((s2l "Error: " ++ err).isEmpty) = false := by
      simp [s2l]
    have hXne : (s2l "Error: " ++ err) ≠ [] := by
      simp [s2l]
    simp [parseMessage, htype, hne1, hne2, hmsg, hsum, hapi, htr, htr2, herr,
      hstrip, htrim, hfmt, hEne, hXne]

/-- Pure-noise user event (content is a single `ide_` region), no error. -/
def eWit4a : ClaudeEvent :=
  ⟨s2l "user", none, none,
    some ⟨s2l "user", ClaudeContent.str (s2l "<ide_selection>sel</ide_selection>")⟩,
    none, false, none⟩

/-- User event with no message payload carrying only an error signal. -/
def eWit4b : ClaudeEvent :=
  ⟨s2l "user", none, none, none, some (s2l "oops"), false, none⟩

theorem claim_C4_witness :
    parseMessage 0 eWit4a 5 = none
    ∧ ∃ ts : Int, parseMessage 0 eWit4b 5
        = some ⟨ChatRole.user, s2l "Error: oops", some ts⟩ :=
  ⟨(claim_C4 0 5 eWit4a).1
      ⟨s2l "user", ClaudeContent.str (s2l "<ide_selection>sel</ide_selection>")⟩
      (s2l "<ide_selection>sel</ide_selection>") rfl rfl rfl (by decide)
      (by decide),
   (claim_C4 0 5 eWit4b).2 (s2l "oops") rfl rfl rfl rfl (by decide) rfl
      (by decide) (by decide) (by decide)⟩

/-- Pure-noise user event that ALSO carries an error signal: the claim
promises a synthesized error message for it. -/
def eCex4 : ClaudeEvent :=
  ⟨s2l "user", none, none,
    some ⟨s2l "user",
      ClaudeContent.str (s2l "<ide_opened_file>main.rs</ide_opened_file>")⟩,
    some (s2l "boom"), false, none⟩

/-- Counterexample to the original claim: a user event whose content
consists solely of a recognized `ide_` block is dropped even though it
carries an error signal — no synthesized error message is produced. -/
theorem claim_C4_cex :
    parseMessage 0 eCex4 5 = none
    ∧ eCex4.error = some (s2l "boom")
    ∧ jsTrim (stripIde (s2l "<ide_opened_file>main.rs</ide_opened_file>")) = [] := by
  decide

/-- C8 (amended): title derivation.  A Claude session title is the first
qualifying user message content truncated to 50 characters — with embedded
newlines preserved, not collapsed — or else the session id verbatim (which
may exceed 50 characters); so every title is either at most 50 characters
long or equal to the session id.  A Cursor composer title is the composer
name verbatim (untruncated) or, for unnamed composers, the subtitle
truncated to 50 characters. -/
theorem claim_C8 :
    (∀ (nowMs : Int) (events : List ClaudeEvent) (fileName : List Char)
        (ct : Int) (s : ChatSession),
      parseSession nowMs events fileName ct = some s →
      s.title.length ≤ 50 ∨ s.title = s.id)
    ∧ (∀ (nowMs : Int) (comps : List CursorComposer) (src : List Char)
        (s : ChatSession), s ∈ parseComposers nowMs comps src →
      s.title.length ≤ 50 ∨ ∃ c ∈ comps, c.name = some s.title) := by
  constructor
  · intro nowMs events fileName ct s hs
    unfold parseSession at hs
    dsimp only at hs
    set st := List.foldl (parseSessionStep nowMs ct fileName)
      ⟨[], if ct > 0 then ct else nowMs, []⟩ events with hst
    by_cases hemp : st.messages.isEmpty = true
    · rw [if_pos hemp] at hs
      simp at hs
    · rw [if_neg hemp] at hs
      obtain rfl := Option.some.inj hs
      rcases hf : st.messages.find? titlePred with _ | m
      · right
        simp [hf]
      · left
        simp [hf, List.length_take]
  · intro nowMs comps src s hs
    unfold parseComposers at hs
    rw [List.mem_map] at hs
    obtain ⟨comp, hcm, heq⟩ := hs
    have hcomps : comp ∈ comps := List.mem_of_mem_filter hcm
    subst heq
    dsimp only
    by_cases hsub : ((if strTruthy comp.name then comp.name.getD []
        else s2l "Untitled Composer") = s2l "Untitled Composer"
        ∧ strTruthy comp.subtitle)
    · left
      simp [hsub, List.length_take]
    · rw [if_neg hsub]
      by_cases hname : strTruthy comp.name
      · right
        refine ⟨comp, hcomps, ?_⟩
        rcases hn : comp.name with _ | v
        · rw [hn] at hname; simp [strTruthy] at hname
        · rw [hn] at hname
          simp [hname, hn]
      · left
        simp [hname]
        decide

/-- Claude event with a qualifying short user message. -/
def eW8 : ClaudeEvent :=
  ⟨s2l "user", some (s2l "sess-8"), some 7,
    some ⟨s2l "user", ClaudeContent.str (s2l "hello title")⟩, none, false, none⟩

/-- The session parsed from `eW8`. -/
def sW8 : ChatSession :=
  (parseSession 0 [eW8] (s2l "f.jsonl") 5).getD ⟨[], [], [], 0, none, [], []⟩

/-- Named Cursor composer record. -/
def compW8 : CursorComposer :=
  ⟨some (s2l "c1"), some (s2l "Task 1"), none, none, none, some 123, none,
    some (s2l "agent")⟩

/-- The session produced from `compW8`. -/
def sC8 : ChatSession :=
  (parseComposers 0 [compW8] (s2l "Cursor")).headD ⟨[], [], [], 0, none, [], []⟩

theorem claim_C8_witness :
    (sW8.title.length ≤ 50 ∨ sW8.title = sW8.id)
    ∧ (sC8.title.length ≤ 50 ∨ ∃ c ∈ [compW8], c.name = some sC8.title) :=
  ⟨claim_C8.1 0 [eW8] (s2l "f.jsonl") 5 sW8 (by decide),
   claim_C8.2 0 [compW8] (s2l "Cursor") sC8 (by decide)⟩

/-- Claude event whose user message contains an embedded newline. -/
def eCex8 : ClaudeEvent :=
  ⟨s2l "user", some (s2l "sess-c8"), some 7,
    some ⟨s2l "user", ClaudeContent.str (s2l "line1\nline2")⟩, none, false, none⟩

/-- Claude event with only an assistant message and a 60-character session
id. -/
def eCex8b : ClaudeEvent :=
  ⟨s2l "assistant",
    some (s2l "aaaaaaaaaaaaaaaaaaaaaaaaaaaaaaaaaaaaaaaaaaaaaaaaaaaaaaaaaaaa"),
    some 7, some ⟨s2l "assistant", ClaudeContent.str (s2l "x")⟩, none, false,
    none⟩

/-- Counterexample to the original claim: the Claude title keeps the
embedded newline (it is not collapsed to a space), and the session-id
fallback produces a 60-character title, refuting the universal 50-character
bound. -/
theorem claim_C8_cex :
    ((parseSession 0 [eCex8] (s2l "f.jsonl") 5).map (fun s => s.title))
        = some (s2l "line1\nline2")
    ∧ '\n' ∈ s2l "line1\nline2"
    ∧ ((parseSession 0 [eCex8b] (s2l "g.jsonl") 5).map (fun s => s.title.length))
        = some 60 := by decide

/-! ## C5: consecutive-assistant merge (Cursor) vs per-record emission
(Cline family) -/

/-- A head element surviving `List.dropWhile p` fails `p`. -/
theorem dropWhile_head_false {p : Char → Bool} {l : List Char} {a : Char}
    (h : (l.dropWhile p).head? = some a) : p a = false := by
  induction l with
  | nil => simp [List.dropWhile] at h
  | cons b t ih =>
    rw [List.dropWhile_cons] at h
    by_cases hb : p b = true
    · rw [if_pos hb] at h
      exact ih h
    · rw [if_neg hb] at h
      have hba : b = a := by simpa using h
      subst hba
      simpa using hb

/-- When `List.dropWhile` leaves something, the last element is
untouched. -/
theorem dropWhile_last_eq {p : Char → Bool} {l : List Char}
    (h : l.dropWhile p ≠ []) :
    (l.dropWhile p).getLast? = l.getLast? := by
  induction l with
  | nil => simp [List.dropWhile] at h
  | cons b t ih =>
    rw [List.dropWhile_cons] at h ⊢
    by_cases hb : p b = true
    · rw [if_pos hb] at h ⊢
      rcases t with _ | ⟨c, t2⟩
      · simp [List.dropWhile] at h
      · rw [List.getLast?_cons_cons]
        exact ih h
    · rw [if_neg hb]

/-- `List.dropWhile` is the identity when the head already fails the
predicate. -/
theorem dropWhile_eq_self_of_head {p : Char → Bool} {l : List Char}
    {a : Char} (hh : l.head? = some a) (ha : p a = false) :
    l.dropWhile p = l := by
  rcases l with _ | ⟨b, t⟩
  · simp at hh
  · have hba : b = a := by simpa using hh
    subst hba
    rw [List.dropWhile_cons, if_neg (by simp [ha])]

/-- A string whose first and last characters are not whitespace is fixed
by the JavaScript trim. -/
theorem jsTrim_eq_self {l : List Char} {a b : Char}
    (hh : l.head? = some a) (ha : a.isWhitespace = false)
    (hl : l.getLast? = some b) (hb : b.isWhitespace = false) :
    jsTrim l = l := by
  unfold jsTrim
  rw [dropWhile_eq_self_of_head hh ha,
    dropWhile_eq_self_of_head ((List.head?_reverse l).trans hl) hb,
    List.reverse_reverse]

/-- The first character of a trimmed string is not whitespace. -/
theorem jsTrim_head_not_ws {l : List Char} {a : Char}
    (h : (jsTrim l).head? = some a) : a.isWhitespace = false := by
  unfold jsTrim at h
  rw [List.head?_reverse] at h
  have hne :
      (l.dropWhile Char.isWhitespace).reverse.dropWhile Char.isWhitespace
        ≠ [] := by
    intro hv
    rw [hv] at h
    simp at h
  rw [dropWhile_last_eq hne, List.getLast?_reverse] at h
  exact dropWhile_head_false h

/-- The last character of a trimmed string is not whitespace. -/
theorem jsTrim_last_not_ws {l : List Char} {b : Char}
    (h : (jsTrim l).getLast? = some b) : b.isWhitespace = false := by
  unfold jsTrim at h
  rw [List.getLast?_reverse] at h
  exact dropWhile_head_false h

/-- The JavaScript trim is idempotent. -/
theorem jsTrim_jsTrim (l : List Char) : jsTrim (jsTrim l) = jsTrim l := by
  rcases hz : jsTrim l with _ | ⟨a, t⟩
  · rfl
  · have hh : (jsTrim l).head? = some a := by rw [hz, List.head?_cons]
    have ha := jsTrim_head_not_ws hh
    obtain ⟨b, hlq⟩ : ∃ b, (a :: t).getLast? = some b :=
      Option.isSome_iff_exists.mp (List.getLast?_isSome.mpr (by simp))
    have hlb : (jsTrim l).getLast? = some b := by rw [hz]; exact hlq
    have hb := jsTrim_last_not_ws hlb
    exact jsTrim_eq_self rfl ha hlq hb

/-- Extracted bubble text is already trimmed: trimming it again changes
nothing. -/
theorem jsTrim_extract (x : CursorBubble) :
    jsTrim (extractTextContent x) = extractTextContent x :=
  jsTrim_jsTrim _

/-- The blank-line join of a nonempty-headed list starts with the head of
its first element. -/
theorem joinBlank_head? (z : List Char) (r : List (List Char))
    (hz : z ≠ []) : (joinBlank (z :: r)).head? = z.head? := by
  rcases r with _ | ⟨y, r⟩
  · rfl
  · rcases z with _ | ⟨c, t⟩
    · exact absurd rfl hz
    · rfl

/-- The blank-line join of a list of nonempty strings ends with the last
character of its last element. -/
theorem joinBlank_getLast? : ∀ (r : List (List Char)) (z : List Char),
    (∀ u ∈ z :: r, u ≠ []) →
    ∃ w, (z :: r).getLast? = some w
      ∧ (joinBlank (z :: r)).getLast? = w.getLast? := by
  intro r
  induction r with
  | nil =>
    intro z h
    exact ⟨z, rfl, rfl⟩
  | cons y r ih =>
    intro z h
    obtain ⟨w, hw1, hw2⟩ := ih y (fun u hu => h u (List.mem_cons_of_mem z hu))
    refine ⟨w, ?_, ?_⟩
    · rw [List.getLast?_cons_cons]
      exact hw1
    · have hyne : y ≠ [] := h y (by simp)
      have hjne : joinBlank (y :: r) ≠ [] := by
        intro hj
        have hhd := joinBlank_head? y r hyne
        rw [hj] at hhd
        rcases y with _ | ⟨c, t⟩
        · exact hyne rfl
        · simp at hhd
      show (z ++ '\n' :: '\n' :: joinBlank (y :: r)).getLast? = w.getLast?
      rw [List.getLast?_append_of_ne_nil z (by simp),
        List.getLast?_cons_cons]
      rcases hjb : joinBlank (y :: r) with _ | ⟨c, t⟩
      · exact absurd hjb hjne
      · rw [List.getLast?_cons_cons, ← hjb]
        exact hw2

/-- A string of trim-stable nonempty pieces joined by blank lines is
itself trim-stable: its first and last characters come from the pieces. -/
theorem jsTrim_joinBlank (l : List (List Char))
    (h : ∀ z ∈ l, jsTrim z = z ∧ z ≠ []) :
    jsTrim (joinBlank l) = joinBlank l := by
  rcases l with _ | ⟨z, r⟩
  · rfl
  · obtain ⟨hz, hzne⟩ := h z (by simp)
    obtain ⟨w, hw1, hw2⟩ := joinBlank_getLast? r z (fun u hu => (h u hu).2)
    have hwmem : w ∈ z :: r := List.mem_of_getLast?_eq_some hw1
    obtain ⟨hwtrim, hwne⟩ := h w hwmem
    obtain ⟨a, hzh⟩ : ∃ a, z.head? = some a := by
      rcases z with _ | ⟨a, t⟩
      · exact absurd rfl hzne
      · exact ⟨a, rfl⟩
    have hh : (joinBlank (z :: r)).head? = some a := by
      rw [joinBlank_head? z r hzne]
      exact hzh
    have ha : a.isWhitespace = false :=
      jsTrim_head_not_ws (show (jsTrim z).head? = some a by rw [hz]; exact hzh)
    obtain ⟨b, hwl⟩ : ∃ b, w.getLast? = some b :=
      Option.isSome_iff_exists.mp (List.getLast?_isSome.mpr hwne)
    have hb : b.isWhitespace = false :=
      jsTrim_last_not_ws
        (show (jsTrim w).getLast? = some b by rw [hwtrim]; exact hwl)
    exact jsTrim_eq_self hh ha (hw2.trans hwl) hb

/-- Reassociation of the blank-line join: gluing a blank-line pair onto
the first element is the same as extending the list. -/
theorem joinBlank_glue (x y : List Char) (l : List (List Char)) :
    joinBlank ((x ++ '\n' :: '\n' :: y) :: l)
      = x ++ '\n' :: '\n' :: joinBlank (y :: l) := by
  rcases l with _ | ⟨z, r⟩
  · rfl
  · show (x ++ '\n' :: '\n' :: y) ++ '\n' :: '\n' :: joinBlank (z :: r)
      = x ++ '\n' :: '\n' :: (y ++ '\n' :: '\n' :: joinBlank (z :: r))
    simp [List.append_assoc]

/-- Accumulation invariant of the bubble loop: a run of assistant bubbles
with nonempty content folds into the pending buffer as a blank-line join,
keeping the timestamp of the buffer start. -/
theorem parseLoop_acc (nowMs : Int) :
    ∀ (run : List CursorBubble) (p : PendingAsst) (T : List CursorBubble),
      (∀ b ∈ run, bubbleIsUser b = false ∧ extractTextContent b ≠ []) →
      parseLoop nowMs (some p) (run ++ T)
        = parseLoop nowMs
            (some ⟨joinBlank (p.content :: run.map extractTextContent),
              p.timestamp⟩) T := by
  intro run
  induction run with
  | nil =>
    intro p T h
    rfl
  | cons b run ih =>
    intro p T h
    obtain ⟨hu, hc⟩ := h b (by simp)
    have h2 : ∀ x ∈ run, bubbleIsUser x = false ∧ extractTextContent x ≠ [] :=
      fun x hx => h x (by simp [hx])
    have hce : (extractTextContent b).isEmpty = false := by
      rcases hcx : extractTextContent b with _ | ⟨c, t⟩
      · exact absurd hcx hc
      · rfl
    show parseLoop nowMs (some p) (b :: (run ++ T)) = _
    simp only [parseLoop, hce, hu, Bool.false_eq_true, if_false]
    rw [ih ⟨p.content ++ s2l "\n\n" ++ extractTextContent b, p.timestamp⟩ T h2]
    have harg : p.content ++ s2l "\n\n" ++ extractTextContent b
        = p.content ++ '\n' :: '\n' :: extractTextContent b := by
      have hsl : s2l "\n\n" = ['\n', '\n'] := rfl
      rw [hsl, List.append_assoc]
      rfl
    dsimp only
    rw [harg, joinBlank_glue]
    rfl

/-- C5 (amended): consecutive-assistant merge.  The CURSOR bubble
normalizer `parseBubbles` merges every maximal run of adjacent assistant
bubbles with non-empty extracted content into exactly one assistant
message whose content is the bodies joined by blank lines, stamped with
the first bubble of the run; a user bubble always flushes the pending
merged-assistant buffer before the user message is emitted, and a run
reaching the end of the input is flushed as a single message.  (The
Cline-family `fetchSessionContent` does NOT merge: it emits one message
per record; see the counterexample.) -/
theorem claim_C5 :
    (∀ (nowMs : Int) (bs : List CursorBubble) (b : CursorBubble)
        (run rest : List CursorBubble) (u : CursorBubble),
      sortBubbles bs = b :: run ++ u :: rest →
      bubbleIsUser b = false → extractTextContent b ≠ [] →
      (∀ x ∈ run, bubbleIsUser x = false ∧ extractTextContent x ≠ []) →
      bubbleIsUser u = true → extractTextContent u ≠ [] →
      parseBubbles nowMs bs
        = ⟨ChatRole.assistant,
            joinBlank ((b :: run).map extractTextContent),
            some (if intTruthy b.createdAt then b.createdAt.getD 0
              else nowMs)⟩
          :: ⟨ChatRole.user, extractTextContent u,
              some (if intTruthy u.createdAt then u.createdAt.getD 0
                else nowMs)⟩
          :: parseLoop nowMs none rest)
    ∧ (∀ (nowMs : Int) (bs : List CursorBubble) (b : CursorBubble)
        (run : List CursorBubble),
      sortBubbles bs = b :: run →
      bubbleIsUser b = false → extractTextContent b ≠ [] →
      (∀ x ∈ run, bubbleIsUser x = false ∧ extractTextContent x ≠ []) →
      parseBubbles nowMs bs
        = [⟨ChatRole.assistant,
            joinBlank ((b :: run).map extractTextContent),
            some (if intTruthy b.createdAt then b.createdAt.getD 0
              else nowMs)⟩]) := by
  constructor
  · intro nowMs bs b run rest u hsort hbu hbc hrun huu huc
    have hce : (extractTextContent b).isEmpty = false := by
      rcases hcx : extractTextContent b with _ | ⟨c, t⟩
      · exact absurd hcx hbc
      · rfl
    have hcu : (extractTextContent u).isEmpty = false := by
      rcases hcx : extractTextContent u with _ | ⟨c, t⟩
      · exact absurd hcx huc
      · rfl
    have hJ : jsTrim (joinBlank
          (extractTextContent b :: run.map extractTextContent))
        = joinBlank (extractTextContent b :: run.map extractTextContent) := by
      apply jsTrim_joinBlank
      intro z hz
      rcases List.mem_cons.mp hz with hz1 | hz2
      · subst hz1
        exact ⟨jsTrim_extract b, hbc⟩
      · obtain ⟨x, hxmem, hxe⟩ := List.mem_map.mp hz2
        subst hxe
        exact ⟨jsTrim_extract x, (hrun x hxmem).2⟩
    unfold parseBubbles
    rw [hsort, List.cons_append]
    simp only [parseLoop, hce, hbu, Bool.false_eq_true, if_false]
    rw [parseLoop_acc nowMs run
      ⟨extractTextContent b,
        if intTruthy b.createdAt then b.createdAt.getD 0 else nowMs⟩
      (u :: rest) hrun]
    simp only [parseLoop, flushPending, hcu, huu, if_true, List.map_cons]
    rw [hJ, jsTrim_extract u]
    rfl
  · intro nowMs bs b run hsort hbu hbc hrun
    have hce : (extractTextContent b).isEmpty = false := by
      rcases hcx : extractTextContent b with _ | ⟨c, t⟩
      · exact absurd hcx hbc
      · rfl
    have hJ : jsTrim (joinBlank
          (extractTextContent b :: run.map extractTextContent))
        = joinBlank (extractTextContent b :: run.map extractTextContent) := by
      apply jsTrim_joinBlank
      intro z hz
      rcases List.mem_cons.mp hz with hz1 | hz2
      · subst hz1
        exact ⟨jsTrim_extract b, hbc⟩
      · obtain ⟨x, hxmem, hxe⟩ := List.mem_map.mp hz2
        subst hxe
        exact ⟨jsTrim_extract x, (hrun x hxmem).2⟩
    unfold parseBubbles
    rw [hsort]
    simp only [parseLoop, hce, hbu, Bool.false_eq_true, if_false]
    have hacc := parseLoop_acc nowMs run
      ⟨extractTextContent b,
        if intTruthy b.createdAt then b.createdAt.getD 0 else nowMs⟩
      [] hrun
    rw [List.append_nil] at hacc
    rw [hacc]
    simp only [parseLoop, flushPending, List.map_cons]
    rw [hJ]

/-- First assistant bubble of the witness run (creation time 1). -/
def bW5a : CursorBubble :=
  ⟨some (s2l "alpha"), none, some (BubbleType.num 2), some 1⟩

/-- Second assistant bubble of the witness run (creation time 2). -/
def bW5b : CursorBubble :=
  ⟨some (s2l "beta"), none, some (BubbleType.num 2), some 2⟩

/-- Third assistant bubble of the witness run (creation time 3). -/
def bW5c : CursorBubble :=
  ⟨some (s2l "gamma"), none, some (BubbleType.num 2), some 3⟩

/-- User bubble following the witness run (creation time 4). -/
def bW5u : CursorBubble :=
  ⟨some (s2l "next question"), none, some (BubbleType.num 1), some 4⟩

theorem claim_C5_witness :
    parseBubbles 0 [bW5a, bW5b, bW5c, bW5u]
      = ⟨ChatRole.assistant,
          joinBlank ([bW5a, bW5b, bW5c].map extractTextContent),
          some (if intTruthy bW5a.createdAt then bW5a.createdAt.getD 0
            else 0)⟩
        :: ⟨ChatRole.user, extractTextContent bW5u,
            some (if intTruthy bW5u.createdAt then bW5u.createdAt.getD 0
              else 0)⟩
        :: parseLoop 0 none []
    ∧ parseBubbles 0 [bW5a, bW5b, bW5c]
      = [⟨ChatRole.assistant,
          joinBlank ([bW5a, bW5b, bW5c].map extractTextContent),
          some (if intTruthy bW5a.createdAt then bW5a.createdAt.getD 0
            else 0)⟩]
    ∧ joinBlank ([bW5a, bW5b, bW5c].map extractTextContent)
        = s2l "alpha\n\nbeta\n\ngamma" :=
  ⟨claim_C5.1 0 [bW5a, bW5b, bW5c, bW5u] bW5a [bW5b, bW5c] [] bW5u rfl
      (by decide) (by decide) (by decide) (by decide) (by decide),
   claim_C5.2 0 [bW5a, bW5b, bW5c] bW5a [bW5b, bW5c] rfl
      (by decide) (by decide) (by decide),
   by decide⟩

/-- First of two adjacent assistant `say`/`text` records in a Cline-family
`ui_messages` list. -/
def uiA1 : ClineUiMsg :=
  ⟨s2l "say", some (s2l "text"), some (s2l "part one"), false, some 1, none⟩

/-- Second adjacent assistant `say`/`text` record. -/
def uiA2 : ClineUiMsg :=
  ⟨s2l "say", some (s2l "text"), some (s2l "part two"), false, some 2, none⟩

/-- Counterexample to the original claim: the Cline-family content fetch
emits two adjacent assistant records as two separate assistant messages —
nothing is merged, and no blank-line join of the two bodies appears. -/
theorem claim_C5_cex :
    fetchSessionContent [uiA1, uiA2]
      = [⟨ChatRole.assistant, s2l "part one", some 1⟩,
         ⟨ChatRole.assistant, s2l "part two", some 2⟩] := by
  decide
